import Mathlib

/-!
# Verification of the closuremvc UI framework

A shallow embedding, in Lean 4, of the parts of the `closuremvc` JavaScript
repository that its specification makes claims about:

* `cmvc.array.split` (src/array.js)
* `cmvc.string.words` and the declarative-children constructor plus
  `renderChildren` of `cmvc.ui.View` (src/unnamed/part_001)
* the highlight-navigation helpers and the child-list/highlight-index
  bookkeeping of `cmvc.ui.View` (src/unnamed/part_001)
* `setEnabled` cascading (src/view.js, with the matching definitions of
  `isParentDisabled_`/`isTransitionAllowed` from the same file)
* the key-value-observing registry (src/kvo.js)
* declarative event-handler attachment (src/events.js and
  src/unnamed/part_001), and the `EventDispatch` sentinel tables
* the bitmask state machinery `setState` / `setStateInternal` /
  `setSupportedState` (src/unnamed/part_001)
* `cmvc.Template#applyTemplate` and `cmvc.Template#compile`
  (src/unnamed/part_005)

JavaScript numbers used as bitmasks are modelled as `Nat` values below
`2^32` with the 32-bit complement `~x` rendered as `0xFFFFFFFF ^^^ x`; JS
array indices are modelled as `Int` where negative values occur.  Event
dispatch through `goog.events` is synchronous; a dispatched event with no
registered listener makes `dispatchEvent` return `true`, which is the
situation in every modelled scenario (noted again at each use).
-/

namespace Cmvc

/-! ## Definitions: src/array.js — `cmvc.array.split`

`cmvc.array.split = function(array, index) {
   return [array.slice(0, index), array.slice(index, array.length)];
 };`

`Array.prototype.slice(begin, end)` clamps its arguments: a negative
argument counts from the end of the array, and arguments are clamped into
`[0, length]`.  `jsSlice` reproduces exactly that semantics. -/

/-- ECMAScript `Array.prototype.slice` index resolution: a negative index
counts back from `len`, and the result is clamped into `[0, len]`. -/
def jsSliceIndex (len : Nat) (i : Int) : Nat :=
  if i < 0 then (max (len + i) 0).toNat else min i.toNat len

/-- ECMAScript `Array.prototype.slice(begin, end)`: elements from the
resolved begin index (inclusive) to the resolved end index (exclusive). -/
def jsSlice (a : List α) (b e : Int) : List α :=
  let b' := jsSliceIndex a.length b
  let e' := jsSliceIndex a.length e
  (a.take e').drop b'

/-- `cmvc.array.split(array, index)`: the pair
`[array.slice(0, index), array.slice(index, array.length)]`. -/
def array_split (a : List α) (index : Int) : List α × List α :=
  (jsSlice a 0 index, jsSlice a index a.length)

/-! ## Definitions: src/unnamed/part_005 — `cmvc.string.words`

`cmvc.string.words = function(str) {
   return goog.string.collapseWhitespace(str).split(" ");
 }`

Strings are modelled as `List Char`.  `goog.string.collapseWhitespace` is
third-party Closure-library code (not in this repository); it is
`str.replace(/[\s\xa0]+/g, ' ').replace(/^\s+|\s+$/g, '')`: every run of
whitespace becomes a single space, then leading/trailing whitespace is
stripped.  `String.prototype.split(" ")` splits at every space and keeps
empty segments (so splitting the empty string yields `[""]`). -/

/-- The JS `\s` whitespace class (plus `\xa0`), restricted to the
characters that can occur in the claims considered here. -/
def isJsWs (c : Char) : Bool :=
  c = ' ' || c = '\t' || c = '\n' || c = '\r' ||
  c = '\x0b' || c = '\x0c' || c = '\xa0'

/-- The run-collapsing pass of `goog.string.collapseWhitespace`
(`replace(/[\s\xa0]+/g, ' ')`): `inRun` records whether the previous
character was part of a whitespace run already replaced by `' '`. -/
def collapseAux : Bool → List Char → List Char
  | _, [] => []
  | inRun, c :: rest =>
    if isJsWs c then
      if inRun then collapseAux true rest
      else ' ' :: collapseAux true rest
    else c :: collapseAux false rest

/-- The trimming pass of `goog.string.collapseWhitespace`
(`replace(/^\s+|\s+$/g, '')`). -/
def trimWs (l : List Char) : List Char :=
  ((l.dropWhile isJsWs).reverse.dropWhile isJsWs).reverse

/-- `goog.string.collapseWhitespace` (third-party, modelled from the
Closure library source named above). -/
def collapseWhitespace (l : List Char) : List Char :=
  trimWs (collapseAux false l)

/-- `String.prototype.split(" ")`: accumulator-based splitting at every
`' '`, keeping empty segments. -/
def splitSpaceAux : List Char → List Char → List (List Char)
  | [], acc => [acc.reverse]
  | c :: rest, acc =>
    if c = ' ' then acc.reverse :: splitSpaceAux rest []
    else splitSpaceAux rest (c :: acc)

def splitSpace (l : List Char) : List (List Char) :=
  splitSpaceAux l []

/-- `cmvc.string.words`. -/
def words (l : List Char) : List (List Char) :=
  splitSpace (collapseWhitespace l)

/-- A declarative `children` string written as whitespace-separated names:
the names joined with single spaces (the form used throughout the
repository, e.g. `children: "sectionA sectionB sectionC"`). -/
def joinWords : List (List Char) → List Char
  | [] => []
  | [n] => n
  | n :: ns => n ++ ' ' :: joinWords ns

/-! ## Definitions: src/unnamed/part_001 — declarative children and
`renderChildren` of `cmvc.ui.View`

The constructor runs (for a view whose prototype carries a `children`
string):

`if(this.children) {
   goog.array.forEach(cmvc.string.words(this.children), function(e, i, a) {
     view = new (this[e])(opt_domHelper);
     view.setId(e);
     this.addChild(view, false);
   }, this);
 }`

`this.children` is falsy when it is the empty string, so an empty
`children` string adds no child at all.  `addChild(view, false)` delegates
to `goog.ui.Component#addChildAt(child, count, false)`, which appends the
child to the insertion-ordered child list (it would throw on a duplicate
child id; the claims below assume the declared names are distinct, so that
path is not taken).  A freshly constructed child view has no element and
is not in the document.

`renderChildren` runs while the parent is in the document:

`renderChildren: function() {
   if(this.isInDocument()) {
     var element = this.getElement();
     this.forEachChild(function(child, i) {
       if (!child.isInDocument() && !child.getElement()) {
         child.render(element);
       }
     }, this);
   }
 }`

and `child.render(element)` creates the child's DOM node and appends it to
`element`, so the parent's DOM child-node list grows by one node per
rendered child, in iteration order. -/

/-- A child view, as far as the rendering claim is concerned: its
component id (set from the declared name), whether it has a DOM element,
and whether it is in the document. -/
structure ChildView where
  id : List Char
  hasElement : Bool
  inDocument : Bool
  deriving Repr, DecidableEq

/-- The parent view under construction/rendering: its declared child views
(insertion-ordered, as kept by `goog.ui.Component`), whether the parent
itself is in the document, and the ids of the DOM child nodes of the
parent's root element, in document order. -/
structure ViewR where
  childViews : List ChildView
  inDocument : Bool
  domChildNodes : List (List Char)
  deriving Repr, DecidableEq

/-- The child-view part of the `cmvc.ui.View` constructor: one fresh,
unrendered child per word of the `children` string, in word order (and
none when `children` is the falsy empty string). -/
def mkView (children : List Char) : ViewR :=
  { childViews :=
      if children = [] then []
      else (words children).map fun e => { id := e, hasElement := false, inDocument := false }
    inDocument := false
    domChildNodes := [] }

/-- `child.render(element)` as seen from the parent: the child gets an
element and enters the document, and its root node is appended to the
parent element's child nodes. -/
def renderChildInto (v : ViewR) (c : ChildView) : ViewR × ChildView :=
  ({ v with domChildNodes := v.domChildNodes ++ [c.id] },
   { c with hasElement := true, inDocument := true })

/-- One `forEachChild` iteration of `renderChildren`: render the child
when it is neither in the document nor has an element, else leave it. -/
def renderChildStep (acc : ViewR × List ChildView) (c : ChildView) :
    ViewR × List ChildView :=
  if !c.inDocument && !c.hasElement then
    let (v', c') := renderChildInto acc.1 c
    (v', acc.2 ++ [c'])
  else (acc.1, acc.2 ++ [c])

/-- `cmvc.ui.View#renderChildren`: when the parent is in the document,
render (in order) every child that is neither in the document nor has an
element. -/
def renderChildren (v : ViewR) : ViewR :=
  if v.inDocument then
    let r := v.childViews.foldl renderChildStep ({ v with childViews := [] }, [])
    { r.1 with childViews := r.2 }
  else v

/-- The `render_`/`enterDocument` pipeline restricted to what the claim
needs: `render` creates the parent's DOM, inserts it into the document
(`inDocument_ = true` at the start of `enterDocument`) and then
`enterDocument` calls `renderChildren()`.  (`goog.ui.Component#render_`,
third party, throws when the component is already in the document; the
rendered-twice guard is modelled separately for claim C5.) -/
def renderView (v : ViewR) : ViewR :=
  renderChildren { v with inDocument := true }

/-! ## Definitions: src/kvo.js — the key-value-observing registry

Objects are identified by `Nat` object ids and property names by
`String`; the heap maps (object, property) pairs to values.  (JS keys an
object used as a property name by its string form; distinct objects are
modelled as distinct keys, which matches runs in which the observed
objects have distinguishable keys.)

The only observer callbacks the claims involve are the closures installed
by `cmvc.kvo.bind(srcObj, srcProperty, targetObj, targetProperty)`, which
on `set` forward `cmvc.kvo.set(targetObj, targetProperty, value)`; the
registry is therefore a list of `((srcObj, srcProperty), (targetObj,
targetProperty))` entries, ordered as `observeProperty` pushes them.
`cmvc.kvo.set` recurses through `firePropertyObservers` into the bound
targets; the recursion is fuelled (JS would overflow the stack on a
binding cycle; the fuel is never exhausted in the claims below).

Modelled objects have no `handlePropertySet` method, so that hook in
`cmvc.kvo.set` does not fire. -/

/-- An (object id, property name) pair. -/
abbrev KvoKey := Nat × String

/-- KVO state: the heap of property values (later entries shadow earlier
ones) plus `cmvc.kvo.observerTree_` flattened into an ordered list of
`bind`-installed forwarders. -/
structure KvoState (V : Type) where
  heap : List (KvoKey × V)
  observers : List (KvoKey × KvoKey)
  deriving Repr

/-- Property read: the most recent heap entry for the key. -/
def kvoGet (st : KvoState V) (obj : Nat) (prop : String) : Option V :=
  (st.heap.find? fun e => e.1 = (obj, prop)).map (·.2)

/-- `cmvc.kvo.observeProperty(srcObj, srcProperty, callbackFn)` for a
`bind`-forwarder callback: pushes the callback onto the observer list for
the (object, property) pair. -/
def observeProperty (st : KvoState V) (src : KvoKey) (tgt : KvoKey) : KvoState V :=
  { st with observers := st.observers ++ [(src, tgt)] }

/-- `cmvc.kvo.bind(srcObj, srcProperty, targetObj, targetProperty)`:
registers a forwarder that, on `set(srcObj, srcProperty, value)`, calls
`cmvc.kvo.set(targetObj, targetProperty, value)`. -/
def bind (st : KvoState V) (srcObj : Nat) (srcProperty : String)
    (targetObj : Nat) (targetProperty : String) : KvoState V :=
  observeProperty st (srcObj, srcProperty) (targetObj, targetProperty)

/-- `cmvc.kvo.set(srcObj, srcProperty, value)` (the three-argument form):
assigns `srcObj[srcProperty] = value` and then fires
`cmvc.kvo.firePropertyObservers(srcObj, srcProperty, 'set', value)`, which
applies every registered forwarder for the pair in registration order —
each forwarder being a further `cmvc.kvo.set` on its bound target. -/
def kvoSet (fuel : Nat) (st : KvoState V) (obj : Nat) (prop : String) (v : V) :
    KvoState V :=
  match fuel with
  | 0 => st
  | fuel + 1 =>
    let st1 : KvoState V := { st with heap := ((obj, prop), v) :: st.heap }
    let targets := st1.observers.filter fun e => e.1 = (obj, prop)
    targets.foldl (fun acc e => kvoSet fuel acc e.2.1 e.2.2 v) st1

/-! ## Definitions: src/unnamed/part_001 — bitmask state machinery

`goog.ui.Component.State` constants (third-party, single-bit values used
verbatim by the repository):

DISABLED = 0x01, HOVER = 0x02, ACTIVE = 0x04, SELECTED = 0x08,
CHECKED = 0x10, FOCUSED = 0x20, OPENED = 0x40, ALL = 0xFF. -/

def State.DISABLED : Nat := 0x01
def State.HOVER : Nat := 0x02
def State.ACTIVE : Nat := 0x04
def State.SELECTED : Nat := 0x08
def State.CHECKED : Nat := 0x10
def State.FOCUSED : Nat := 0x20
def State.OPENED : Nat := 0x40
def State.ALL : Nat := 0xFF

/-- All JS bitmask arithmetic happens on 32-bit integers; `~x` is
`mask32 ^^^ x` for `x < 2^32`. -/
def mask32 : Nat := 0xFFFFFFFF

/-- The state-related fields of a `cmvc.ui.View`: `state_`,
`supportedStates_`, `statesWithTransitionEvents_`, plus the
`isInDocument()` flag consulted by `setSupportedState`. -/
structure StateFlags where
  state : Nat
  supportedStates : Nat
  statesWithTransitionEvents : Nat
  inDocument : Bool
  deriving Repr, DecidableEq

/-- `hasState: function(state) { return !!(this.state_ & state); }` -/
def hasState (f : StateFlags) (s : Nat) : Bool :=
  f.state &&& s != 0

/-- `isSupportedState: function(state) { return !!(this.supportedStates_ & state); }` -/
def isSupportedState (f : StateFlags) (s : Nat) : Bool :=
  f.supportedStates &&& s != 0

/-- `setState: function(state, enable) {
      if (this.isSupportedState(state) && enable != this.hasState(state)) {
        this.state_ = enable ? this.state_ | state : this.state_ & ~state;
      }
    }` -/
def setState (f : StateFlags) (s : Nat) (enable : Bool) : StateFlags :=
  if isSupportedState f s && enable != hasState f s then
    { f with state := if enable then f.state ||| s else f.state &&& (mask32 ^^^ s) }
  else f

/-- `setStateInternal: function(state) { this.state_ = state; }` —
documented to not "reject unsupported states". -/
def setStateInternal (f : StateFlags) (s : Nat) : StateFlags :=
  { f with state := s }

/-- `setSupportedState: function(state, support) { ... }`: throws
(`goog.ui.Component.Error.ALREADY_RENDERED`) when removing support for a
state the in-document component is in; otherwise first clears the state
(when removing support for a held state) and then updates the mask. -/
def setSupportedState (f : StateFlags) (s : Nat) (support : Bool) :
    Except String StateFlags :=
  if f.inDocument && hasState f s && !support then
    Except.error "Component already rendered"
  else
    let f1 := if !support && hasState f s then setState f s false else f
    Except.ok
      { f1 with supportedStates :=
          if support then f1.supportedStates ||| s
          else f1.supportedStates &&& (mask32 ^^^ s) }

/-- The claimed invariant: `(state_ AND NOT supportedStates_) == 0`. -/
def stateInv (f : StateFlags) : Prop :=
  f.state &&& (mask32 ^^^ f.supportedStates) = 0

instance (f : StateFlags) : Decidable (stateInv f) := by
  unfold stateInv; infer_instance

/-- A view state supporting only `DISABLED`, with no state bits set (the
C8 scenario input). -/
def disabledOnlyFlags : StateFlags :=
  { state := 0, supportedStates := State.DISABLED,
    statesWithTransitionEvents := 0, inDocument := false }

/-- The default `cmvc.ui.View` state fields: `state_ = 0x00` and
`supportedStates_ = DISABLED | HOVER | ACTIVE | FOCUSED = 0x27`. -/
def defaultViewFlags : StateFlags :=
  { state := 0, supportedStates := 0x27,
    statesWithTransitionEvents := 0, inDocument := false }

/-! ## Definitions: src/events.js — `cmvc.events.attachEventHandlers`,
and the `EventDispatch` sentinel tables

`cmvc.ui.View.EventDispatch` in src/unnamed/part_000 (the table
`cmvc.events.attachEventHandlers` is written against — it dispatches on
`.Parent` and `.Child`):

`cmvc.ui.View.EventDispatch = { Parent: 1, Child: 2 };`

`cmvc.ui.View.EventDispatch` in src/unnamed/part_001 (the table
`attachDeclaredViewEventHandlers` in the same file is written against —
it dispatches on `.Self` and `.Parent`):

`cmvc.ui.View.EventDispatch = { Self: 1, Parent: 2 };` -/

def EventDispatch.Parent : Int := 1
def EventDispatch.Child : Int := 2

def EventDispatch001.Self : Int := 1
def EventDispatch001.Parent : Int := 2

/-- A declared event-handler value, classified the way `goog.typeOf`
classifies it in the `switch` of `cmvc.events.attachEventHandlers`. -/
inductive JsHandler where
  /-- a function object -/
  | fn
  /-- a (possibly dotted) string reference to a user-defined function -/
  | str (s : String)
  /-- a number: a reference to a built-in behavior -/
  | num (n : Int)
  /-- any other value (array, object, null, boolean, …) -/
  | other
  deriving Repr, DecidableEq

/-- The object a listener is bound to (`opt_handler`/`context`). -/
inductive Ctx where
  /-- the `eventTarget` itself -/
  | target
  /-- `eventTarget.getParent()` -/
  | parentOfTarget
  /-- the object produced by `eval` of the text left of the last `'.'` -/
  | evalRef (s : String)
  deriving Repr, DecidableEq

/-- The listener function resolved for a handler. -/
inductive FnRef where
  /-- the handler function itself -/
  | handlerFn
  /-- the user-defined function named by the string -/
  | namedFn (s : String)
  /-- `context.dispatchEvent` -/
  | dispatchEvent
  /-- `context.dispatchEventToChild` -/
  | dispatchEventToChild
  deriving Repr, DecidableEq

/-- The documented error for an unknown number sentinel. -/
def unknownRefError : String :=
  "Unable to attach event handler to the view. Unknown event handler reference."

/-- The documented error for a handler that is neither function, string
nor number. -/
def unknownTypeError : String :=
  "Unable to attach event handler to the view. Unknown event handler type."

/-- The text left of the last `'.'` of the string (`handler.substring(0,
handler.lastIndexOf('.'))`), or `none` when `lastIndexOf('.') < 0`. -/
def beforeLastDot (l : List Char) : Option (List Char) :=
  if '.' ∈ l then
    some (((l.reverse.dropWhile (fun c => c ≠ '.')).drop 1).reverse)
  else none

/-- One iteration of the `goog.object.forEach` body of
`cmvc.events.attachEventHandlers` (src/events.js lines 68-104): the
`switch` on `goog.typeOf(handler)` resolving the listener function and its
context, with the two documented `throw Error(...)` branches. -/
def attachOne (h : JsHandler) : Except String (Ctx × FnRef) :=
  match h with
  | .fn => .ok (.target, .handlerFn)
  | .str s =>
    match beforeLastDot s.data with
    | some pre => .ok (.evalRef (String.mk pre), .namedFn s)
    | none => .ok (.target, .namedFn s)
  | .num n =>
    if n = EventDispatch.Parent then .ok (.parentOfTarget, .dispatchEvent)
    else if n = EventDispatch.Child then .ok (.target, .dispatchEventToChild)
    else .error unknownRefError
  | .other => .error unknownTypeError

/-- `cmvc.events.attachEventHandlers(eventTarget, events, ...)`: each
event/handler pair is classified in turn; a thrown `Error` propagates out
of the `goog.object.forEach`, aborting the remaining attachments. -/
def attachEventHandlers (events : List (String × JsHandler)) :
    Except String (List (String × Ctx × FnRef)) :=
  match events with
  | [] => .ok []
  | (evt, h) :: rest =>
    match attachOne h with
    | .error e => .error e
    | .ok r =>
      match attachEventHandlers rest with
      | .error e => .error e
      | .ok rs => .ok ((evt, r) :: rs)

/-- A handler value that the `switch` accepts without throwing. -/
def goodHandler (h : JsHandler) : Bool :=
  match h with
  | .fn => true
  | .str _ => true
  | .num n => n = EventDispatch.Parent || n = EventDispatch.Child
  | .other => false

/-- The `case "number"` arm of `attachDeclaredViewEventHandlers`
(src/unnamed/part_001 lines 537-551).  The inner `switch` reads:

`case cmvc.ui.View.EventDispatch.Self:
   context = this;
 case cmvc.ui.View.EventDispatch.Parent:
   context = this.getParent();
   break;
 default:
   throw Error("Unable to attach event handler ... reference.");`

The `Self` case has no `break`, so control falls through into the
`Parent` case and the assignment `context = this` is immediately
overwritten with `this.getParent()`; both recognised sentinels therefore
resolve the context to the parent (and `fn = context.dispatchEvent`). -/
def viewEventNumberCase001 (n : Int) : Except String (Ctx × FnRef) :=
  if n = EventDispatch001.Self then .ok (.parentOfTarget, .dispatchEvent)
  else if n = EventDispatch001.Parent then .ok (.parentOfTarget, .dispatchEvent)
  else .error unknownRefError

/-! ## Definitions: src/unnamed/part_000 — `dispatchEventToChild` /
`getOwnerControl`

`dispatchEventToChild` redirects an event to the child view owning the
DOM node that dispatched it:

`dispatchEventToChild: function(e) {
   var child = this.getOwnerControl(e.target);
   if (child) { child.dispatchEvent(e); }
 }`

`getOwnerControl` walks up from the target node through `parentNode`,
stopping at the container's own element, and returns the first child
registered in `childElementIdMap_` under a visited node's DOM id.  A DOM
node chain is modelled as the list of ids of the nodes visited by that
`while` loop (the event target first). -/

/-- `getOwnerControl(node)`: `childElementIdMap_` is a map from DOM id to
child view (children modelled by `Nat` identifiers). -/
def getOwnerControl (childElementIdMap : List (String × Nat))
    (chain : List String) : Option Nat :=
  match chain with
  | [] => none
  | id :: rest =>
    match childElementIdMap.find? (fun e => e.1 = id) with
    | some e => some e.2
    | none => getOwnerControl childElementIdMap rest

/-- `dispatchEventToChild(e)`: the child the event is re-dispatched to
(`none` when `getOwnerControl` finds no owner, in which case nothing is
dispatched). -/
def dispatchEventToChild (childElementIdMap : List (String × Nat))
    (chain : List String) : Option Nat :=
  getOwnerControl childElementIdMap chain

/-! ## Definitions: src/unnamed/part_001 — `setKeyEventTarget` and the
rendered-twice guard

`setKeyEventTarget` (lines 248-269) updates `keyEventTarget_` when the
view is focusable — the in-document branch additionally moves DOM
listeners between the old and new targets (listener bookkeeping with no
effect on the modelled fields) — and otherwise throws. -/

/-- The fields of a view that `setKeyEventTarget` touches or reads. -/
structure KeyTargetView where
  focusable : Bool
  keyEventTarget : Option Nat
  inDocument : Bool
  deriving Repr, DecidableEq

/-- `cmvc.ui.View#setKeyEventTarget`. -/
def setKeyEventTarget (v : KeyTargetView) (element : Option Nat) :
    Except String KeyTargetView :=
  if v.focusable then
    .ok { v with keyEventTarget := element }
  else
    .error "Can't set key event target for container that doesn't support keyboard focus!"

/-- Modelled from the spec: `cmvc.ui.View#render_` delegates to the
third-party `goog.ui.Component#render_`, which is not part of this
repository.  The repository's own doc comment on `render_`
(src/unnamed/part_001 lines 338-360) documents the delegated contract —
"Throws an Error if the component is already rendered." — and spec §4.1
says each transition is idempotent-guarded (throws if already rendered);
on the non-throwing path the element is created, inserted, and
`enterDocument` runs (which is `renderView` above). -/
def render_ (v : ViewR) : Except String ViewR :=
  if v.inDocument then .error "Component already rendered"
  else .ok (renderView v)

/-! ## Definitions: src/unnamed/part_001 — child-list and highlight
bookkeeping of `cmvc.ui.View`

The object literal defining `cmvc.ui.View`'s prototype (src/unnamed/part_001
lines 49-1931) contains TWO properties named `setHighlighted`:

* line 1782: `setHighlighted: function(highlight) { if
  (this.isTransitionAllowed(HOVER, highlight)) this.setState(HOVER,
  highlight); }` (the control-style boolean version), and
* line 1819: `setHighlighted: function(item) {
  this.setHighlightedIndex(this.indexOfChild(item)); }` (the
  container-style item version).

In a JavaScript object literal the later duplicate key wins, so the
boolean version is dead code and every call `child.setHighlighted(true)`
or `control.setHighlighted(false)` runs the ITEM version with a boolean
argument.  `indexOfChild(true)` / `indexOfChild(false)` is `-1` (the
child list holds views, and `indexOfChild` returns `-1` for a falsy or
absent argument), so those calls become `setHighlightedIndex(-1)` on the
CHILD, whose only live branch (`else if (this.highlightedIndex_ > -1)
{ this.getHighlighted().setHighlighted(false); }`) again runs the item
version one level deeper; no assignment to any field ever executes on any
path.  The model therefore gives `setHighlighted`-with-a-boolean the
identity semantics, and `highlightedIndex_` is only ever written by the
event handlers `handleHighlightItem` / `handleUnHighlightItem` — which no
view ever triggers, because the dead boolean `setHighlighted` was the
only caller of `setState(HOVER, …)` on this path and the HIGHLIGHT /
UNHIGHLIGHT transition events are never dispatched. -/

/-- A child view inside a container, with the fields read by
`canHighlightItem` and an identifier for `indexOfChild`. -/
structure CChild where
  cid : String
  visible : Bool
  enabled : Bool
  flags : StateFlags
  deriving Repr, DecidableEq

/-- The container fields touched by the highlight / child-list
operations. -/
structure Cont where
  childList : List CChild
  highlightedIndex : Int
  mouseButtonPressed : Bool
  deriving Repr, DecidableEq

/-- `goog.ui.Component#getChildAt(index)`: `null` outside `[0, count)`.
(A `NaN` index — which `(index + 1) % 0` produces in the empty-container
case — also yields `null`, like every out-of-range index here.) -/
def getChildAt (v : Cont) (i : Int) : Option CChild :=
  if 0 ≤ i ∧ i < v.childList.length then v.childList.get? i.toNat else none

/-- `goog.ui.Component#indexOfChild`: `-1` when absent. -/
def indexOfChild (v : Cont) (cid : String) : Int :=
  match v.childList.findIdx? (fun c => c.cid = cid) with
  | some i => i
  | none => -1

/-- `canHighlightItem: function(item) { return item.isVisible() &&
item.isEnabled() && item.isSupportedState(HOVER); }` -/
def canHighlightItem (c : CChild) : Bool :=
  c.visible && c.enabled && isSupportedState c.flags State.HOVER

/-- `setHighlightedIndex(index)` (src/unnamed/part_001 lines 1804-1811):

`var child = this.getChildAt(index);
 if (child) { child.setHighlighted(true); }
 else if (this.highlightedIndex_ > -1) {
   this.getHighlighted().setHighlighted(false);
 }`

Both calls run the surviving item-version of `setHighlighted` with a
boolean argument (see the section comment above), which changes nothing;
the function returns with the container's state unchanged in every
branch. -/
def setHighlightedIndex (v : Cont) (index : Int) : Cont :=
  match getChildAt v index with
  | some _ => v
  | none => if v.highlightedIndex > -1 then v else v

/-- `setHighlightedIndexFromKeyEvent(index)`: calls
`setHighlightedIndex(index)`. -/
def setHighlightedIndexFromKeyEvent (v : Cont) (index : Int) : Cont :=
  setHighlightedIndex v index

/-- The loop of `highlightHelper` (src/unnamed/part_001 lines 1887-1906):

`curIndex = fn(curIndex, numItems);
 var visited = 0;
 while (visited <= numItems) {
   var control = this.getChildAt(curIndex);
   if (control && this.canHighlightItem(control)) {
     this.setHighlightedIndexFromKeyEvent(curIndex);
     return true;
   }
   visited++;
   curIndex = fn(curIndex, numItems);
 }
 return false;`

The loop body runs at most `numItems + 1` times, the remaining iteration
count standing in as fuel. -/
def highlightHelperLoop (f : Int → Int → Int) (numItems : Int) (v : Cont) :
    Nat → Int → Cont × Bool
  | 0, _ => (v, false)
  | fuel + 1, curIndex =>
    match getChildAt v curIndex with
    | some control =>
      if canHighlightItem control then
        (setHighlightedIndexFromKeyEvent v curIndex, true)
      else highlightHelperLoop f numItems v fuel (f curIndex numItems)
    | none => highlightHelperLoop f numItems v fuel (f curIndex numItems)

/-- `highlightHelper(fn, startIndex)`.  `openItem_` is never assigned in
src/unnamed/part_001, so `indexOfChild(this.openItem_)` is
`indexOfChild(undefined) = -1` and a negative start index stays `-1`.
For an empty container, `(curIndex + 1) % 0` is `NaN` in JS and every
`getChildAt(NaN)` is `null`; the model's `Int.emod` by `0` likewise keeps
every probed index outside the (empty) range, so the loop fails all the
same way. -/
def highlightHelper (f : Int → Int → Int) (startIndex : Int) (v : Cont) :
    Cont × Bool :=
  let curIndex := if startIndex < 0 then -1 else startIndex
  let numItems : Int := v.childList.length
  highlightHelperLoop f numItems v (v.childList.length + 1) (f curIndex numItems)

/-- The step function of `highlightNext` / `highlightFirst`:
`function(index, max) { return (index + 1) % max; }`.  All indices fed to
it here are ≥ -1, where JS `%` and `Int.emod` agree for `max > 0`. -/
def nextStep (index max : Int) : Int := (index + 1) % max

/-- The step function of `highlightPrevious` / `highlightLast`:
`function(index, max) { index--; return index < 0 ? max - 1 : index; }` -/
def prevStep (index max : Int) : Int :=
  let index := index - 1
  if index < 0 then max - 1 else index

/-- `highlightNext()`: helper from the current highlighted index. -/
def highlightNext (v : Cont) : Cont × Bool :=
  highlightHelper nextStep v.highlightedIndex v

/-- `highlightPrevious()`: helper from the current highlighted index. -/
def highlightPrevious (v : Cont) : Cont × Bool :=
  highlightHelper prevStep v.highlightedIndex v

/-- `handleHighlightItem(e)` (src/unnamed/part_001 lines 749-769), for a
HIGHLIGHT event whose target is the child with id `cid`:

`var index = this.indexOfChild(e.target);
 if (index > -1 && index != this.highlightedIndex_) {
   var item = this.getHighlighted();
   if (item) { item.setHighlighted(false); }   // item version: no-op
   this.highlightedIndex_ = index;
   item = this.getHighlighted();
   if (this.isMouseButtonPressed()) { item.setActive(true); }
 }`

`item.setActive(true)` sets the ACTIVE state on the newly highlighted
child when the transition is allowed. -/
def handleHighlightItem (v : Cont) (cid : String) : Cont :=
  let index := indexOfChild v cid
  if index > -1 ∧ index ≠ v.highlightedIndex then
    let v1 := { v with highlightedIndex := index }
    if v1.mouseButtonPressed then
      { v1 with childList := v1.childList.map fun c =>
          if c.cid = cid then
            { c with flags :=
                if isSupportedState c.flags State.ACTIVE &&
                   (true != hasState c.flags State.ACTIVE) then
                  setState c.flags State.ACTIVE true
                else c.flags }
          else c }
    else v1
  else v

/-- `handleUnHighlightItem(e)` (src/unnamed/part_001 lines 776-780):

`if (e.target == this.getHighlighted()) { this.highlightedIndex_ = -1; }` -/
def handleUnHighlightItem (v : Cont) (cid : String) : Cont :=
  match getChildAt v v.highlightedIndex with
  | some c => if c.cid = cid then { v with highlightedIndex := -1 } else v
  | none => v

/-- `addChildAt(control, index, opt_render)` (src/unnamed/part_001 lines
1198-1223): the child's transition-event and supported-state masks are
adjusted, the superclass inserts the child at `index` (`goog.array.insertAt`
after asserting `0 ≤ index ≤ count`), and then

`if (index <= this.highlightedIndex_) { this.highlightedIndex_++; }`

The mask adjustments (`setDispatchTransitionEvents(HOVER|OPENED, true)`,
`setSupportedState(FOCUSED, false)` for the default focusable container,
`setHandleMouseEvents(false)`) follow the source for a default container
configuration. -/
def addChildAt (v : Cont) (control : CChild) (index : Nat) : Cont :=
  let control :=
    { control with flags :=
        { control.flags with
            statesWithTransitionEvents :=
              (control.flags.statesWithTransitionEvents ||| State.HOVER) ||| State.OPENED
            supportedStates :=
              control.flags.supportedStates &&& (mask32 ^^^ State.FOCUSED) } }
  let v1 := { v with childList := v.childList.insertIdx index control }
  if (index : Int) ≤ v1.highlightedIndex then
    { v1 with highlightedIndex := v1.highlightedIndex + 1 }
  else v1

/-- `removeChild(control, opt_unrender)` (src/unnamed/part_001 lines
1237-1261):

`var index = this.indexOfChild(control);
 if (index != -1) {
   if (index == this.highlightedIndex_) {
     control.setHighlighted(false);           // item version: no-op
   } else if (index < this.highlightedIndex_) {
     this.highlightedIndex_--;
   }
 }
 ... superclass removeChild removes the child from the list ...`

Removing the currently highlighted child therefore leaves
`highlightedIndex_` untouched (the boolean `setHighlighted` that the
surrounding goog.ui.Container logic relied on to dispatch UNHIGHLIGHT is
shadowed; see the section comment). -/
def removeChild (v : Cont) (cid : String) : Cont :=
  let index := indexOfChild v cid
  let v1 :=
    if index ≠ -1 then
      if index = v.highlightedIndex then v
      else if index < v.highlightedIndex then
        { v with highlightedIndex := v.highlightedIndex - 1 }
      else v
    else v
  { v1 with childList := v1.childList.filter (fun c => c.cid ≠ cid) }

/-- The claimed invariant: the highlighted index is `-1` or a valid
0-based index of a current child. -/
def highlightInv (v : Cont) : Prop :=
  v.highlightedIndex = -1 ∨
  (0 ≤ v.highlightedIndex ∧ v.highlightedIndex < v.childList.length)

instance (v : Cont) : Decidable (highlightInv v) := by
  unfold highlightInv; infer_instance

/-- A child that is visible, enabled and supports HOVER (the default
`cmvc.ui.View` supported-state mask includes HOVER). -/
def highlightableChild (cid : String) : CChild :=
  { cid := cid, visible := true, enabled := true,
    flags := defaultViewFlags }

/-- The empty container used in the C2 scenario. -/
def emptyCont : Cont :=
  { childList := [], highlightedIndex := -1, mouseButtonPressed := false }

/-- A container with two visible, enabled, HOVER-supporting children and
no current highlight. -/
def twoChildCont : Cont :=
  { childList := [highlightableChild "a", highlightableChild "b"],
    highlightedIndex := -1, mouseButtonPressed := false }


/-! ## Definitions: src/unnamed/part_005 — `cmvc.Template`

`applyTemplate` (lines 79-85), when the template is not compiled, is

`me.html.replace(me.re, function(m, name) {
   return values[name] !== undefined ? values[name] : "";
 });`

with `re : /\{([\w-]+)\}/g`.  `compile` (lines 148-161) builds — through
a string `eval` — a function concatenating the literal chunks of `html`
with `(values['name'] == undefined ? '' : values['name'])` for each
`{name}` match of the same regex.  Before matching, `compile` escapes
backslashes, newlines and single quotes in `html`; the inserted escape
characters (`\`, `n`, `'`) are neither word characters nor braces, so the
escaping can neither destroy nor create a `{name}` match, and after
`eval` the escaped literal chunks denote exactly the original characters.
On GECKO the chunks are joined with `+`, elsewhere collected into an
array and `join('')`-ed — both concatenation.  The two paths therefore
differ only in the per-placeholder test: `!== undefined` (strict) against
`== undefined` (loose, which also matches `null`).

Both paths are modelled over a common tokenisation of `html` by the
shared regex `re`. -/

/-- A value of the `values` object under a given name: absent
(`undefined`), `null`, or a (stringified) value. -/
inductive JsVal where
  | undef
  | nullv
  | strv (s : List Char)
  deriving Repr, DecidableEq

/-- The character class `[\w-]` of the template regex
(`\w` = `[A-Za-z0-9_]`). -/
def isWordChar (c : Char) : Bool :=
  c.isAlphanum || c = '_' || c = '-'

/-- A piece of the template: a literal character or a `{name}`
placeholder. -/
inductive Tok where
  | lit (c : Char)
  | ph (name : List Char)
  deriving Repr, DecidableEq

/-- Global scan of `/\{([\w-]+)\}/g` over the template text.  At a `'{'`
the scanner takes the maximal run of `[\w-]` characters; a match needs
that run non-empty and a `'}'` right after it.  On failure the regex
engine advances one position — emitting the `'{'` as a literal and
rescanning from the next character is the same, since the run characters
contain no further `'{'`.  The fuel is the number of characters still to
scan; each step consumes at least one, so `l.length` suffices. -/
def tmplTokensF : Nat → List Char → List Tok
  | 0, _ => []
  | _, [] => []
  | fuel + 1, c :: rest =>
    if c = '{' then
      let name := rest.takeWhile isWordChar
      match rest.dropWhile isWordChar with
      | '}' :: tail =>
        if name.isEmpty then Tok.lit c :: tmplTokensF fuel rest
        else Tok.ph name :: tmplTokensF fuel tail
      | _ => Tok.lit c :: tmplTokensF fuel rest
    else Tok.lit c :: tmplTokensF fuel rest

/-- The matches of `this.re` over the template text. -/
def tmplTokens (l : List Char) : List Tok :=
  tmplTokensF l.length l

/-- JS string conversion of an inserted value (`String(null)` is
`"null"`). -/
def jsValToString : JsVal → List Char
  | .undef => "undefined".data
  | .nullv => "null".data
  | .strv s => s

/-- Replacement of one token under a per-placeholder insertion test. -/
def renderTok (values : String → JsVal) (keep : JsVal → Bool) : Tok → List Char
  | .lit c => [c]
  | .ph name =>
    if keep (values (String.mk name)) then jsValToString (values (String.mk name))
    else []

/-- `cmvc.Template#applyTemplate` on the uncompiled path: every `{name}`
match is replaced by `values[name]` when `values[name] !== undefined`,
else by the empty string. -/
def applyTemplate (html : List Char) (values : String → JsVal) : List Char :=
  ((tmplTokens html).map (renderTok values fun v => v ≠ JsVal.undef)).flatten

/-- The substitution function produced by `cmvc.Template#compile`: the
same chunks, but each `{name}` inserts
`values['name'] == undefined ? '' : values['name']` — the loose `==`
also sending `null` to the empty string. -/
def compiledApply (html : List Char) (values : String → JsVal) : List Char :=
  ((tmplTokens html).map (renderTok values fun v =>
      !(v = JsVal.undef || v = JsVal.nullv))).flatten

/-! ## Definitions: src/view.js — `setEnabled` cascading

`cmvc.ui.View#setEnabled` (src/view.js lines 1427-1474):

`setEnabled: function(enable) {
   if (!this.isParentDisabled_() &&
       this.isTransitionAllowed(goog.ui.Component.State.DISABLED, !enable)) {
     if (this.enabled_ != enable &&
         this.dispatchEvent(enable ? EventType.ENABLE : EventType.DISABLE)) {
       if (enable) {
         this.enabled_ = true;
         this.forEachChild(function(child) {
           if (child.wasDisabled) { delete child.wasDisabled; }
           else { child.setEnabled(true); }
         });
       } else {
         this.forEachChild(function(child) {
           if (child.isEnabled()) { child.setEnabled(false); }
           else { child.wasDisabled = true; }
         });
         this.enabled_ = false;
         this.setActive(false);
         this.setHighlighted(false);
         this.setMouseButtonPressed(false);
       }
       if (this.isVisible()) { this.renderer_.setFocusable(this, enable); }
       this.setState(goog.ui.Component.State.DISABLED, !enable);
       if (this.isFocusable()) {
         this.renderer_.enableTabIndex(this.getKeyEventTarget(),
                                       enable && this.visible_);
       }
     }
   }
 }`

with `isParentDisabled_` (lines 1404-1408) returning
`!!parent && typeof parent.isEnabled == 'function' && !parent.isEnabled()`
and `isTransitionAllowed` (lines 1813-1822) being `isSupportedState(state)
&& hasState(state) != enable && (!(statesWithTransitionEvents_ & state) ||
this.dispatchEvent(...)) && !this.isDisposed()`.

`dispatchEvent` returns `true` in the modelled scenarios (no listeners
registered).  `setHighlighted(false)` runs the item-overload that the
later duplicate `setHighlighted` key leaves in place (src/view.js also
defines `setHighlighted` twice, lines 1845 and 1882), which — exactly as
described for src/unnamed/part_001 above — changes no field on any path;
it is therefore elided.  `renderer_.setFocusable` / `enableTabIndex`
toggle the DOM tab index, modelled by the `tabIndex` field.

A view is a tree; `isParentDisabled_` reads the parent's CURRENT
`enabled_`, so the recursion passes the caller's enabled flag down: when
a container disables, children are updated before `enabled_ = false`
(so each child sees an enabled parent), and when it enables,
`enabled_ = true` is set first (so again each child sees an enabled
parent) — in both branches the nested calls see `parentEnabled = true`.
A top-level view has no parent (`parentEnabled = none`). -/

/-- The per-view fields read or written on the `setEnabled` path. -/
structure VFlags where
  enabled : Bool
  wasDisabled : Bool
  visible : Bool
  focusable : Bool
  disposed : Bool
  mouseButtonPressed : Bool
  tabIndex : Bool
  sf : StateFlags
  deriving Repr, DecidableEq

/-- A view tree: flags plus child views in insertion order. -/
inductive VTree where
  | node (flags : VFlags) (children : List VTree)

def VTree.flags : VTree → VFlags
  | .node f _ => f

def VTree.children : VTree → List VTree
  | .node _ c => c

/-- `isParentDisabled_()`, given the parent's current `enabled_` (`none`
for a view with no parent). -/
def isParentDisabled (parentEnabled : Option Bool) : Bool :=
  match parentEnabled with
  | none => false
  | some pe => !pe

/-- `isTransitionAllowed(state, enable)` with the transition-event
dispatch conjunct evaluated to `true` (no listeners registered: a
dispatched, uncancelled event returns `true`). -/
def isTransitionAllowed (f : VFlags) (s : Nat) (enable : Bool) : Bool :=
  isSupportedState f.sf s && (hasState f.sf s != enable) && !f.disposed

/-- `this.setActive(false)`: `if (isTransitionAllowed(ACTIVE, false))
setState(ACTIVE, false)`. -/
def setActiveFalse (f : VFlags) : VFlags :=
  if isTransitionAllowed f State.ACTIVE false then
    { f with sf := setState f.sf State.ACTIVE false }
  else f

/-- The common tail of the `setEnabled` body: the visible-branch
`renderer_.setFocusable`, the `setState(DISABLED, !enable)`, and the
focusable-branch `renderer_.enableTabIndex(…, enable && visible_)`. -/
def setEnabledTail (enable : Bool) (f : VFlags) : VFlags :=
  let f1 := if f.visible then { f with tabIndex := enable } else f
  let f2 := { f1 with sf := setState f1.sf State.DISABLED (!enable) }
  if f2.focusable then { f2 with tabIndex := enable && f2.visible } else f2

mutual

/-- `cmvc.ui.View#setEnabled` (src/view.js lines 1427-1474); see the
section comment for the line-by-line correspondence. -/
def setEnabled (parentEnabled : Option Bool) (enable : Bool) : VTree → VTree
  | .node f children =>
    if !(isParentDisabled parentEnabled) &&
       isTransitionAllowed f State.DISABLED (!enable) then
      if f.enabled != enable then
        if enable then
          let f1 := { f with enabled := true }
          let children' := enableChildren children
          .node (setEnabledTail true f1) children'
        else
          let children' := disableChildren children
          let f1 := setActiveFalse { f with enabled := false }
          let f2 := { f1 with mouseButtonPressed := false }
          .node (setEnabledTail false f2) children'
      else .node f children
    else .node f children

/-- The `forEachChild` body of the disabling branch: disable each enabled
child, flag each already-disabled child. -/
def disableChildren : List VTree → List VTree
  | [] => []
  | c :: cs =>
    (if c.flags.enabled then setEnabled (some true) false c
     else .node { c.flags with wasDisabled := true } c.children) ::
    disableChildren cs

/-- The `forEachChild` body of the enabling branch: unflag each flagged
child (`delete child.wasDisabled`), enable the others. -/
def enableChildren : List VTree → List VTree
  | [] => []
  | c :: cs =>
    (if c.flags.wasDisabled then .node { c.flags with wasDisabled := false } c.children
     else setEnabled (some true) true c) ::
    enableChildren cs

end


/-- The consistency between `enabled_` and the DISABLED state bit that
`cmvc.ui.View` maintains (both are updated together by `setEnabled`),
together with DISABLED being supported and the view not being disposed —
the preconditions under which the DISABLED state transition is allowed. -/
def consistentV (f : VFlags) : Prop :=
  f.enabled = !(hasState f.sf State.DISABLED) ∧
  isSupportedState f.sf State.DISABLED = true ∧
  f.disposed = false

instance (f : VFlags) : Decidable (consistentV f) := by
  unfold consistentV; infer_instance

/-- Flags of a fresh enabled view with the default state masks. -/
def enabledVFlags : VFlags :=
  { enabled := true, wasDisabled := false, visible := true, focusable := true,
    disposed := false, mouseButtonPressed := false, tabIndex := true,
    sf := defaultViewFlags }

/-- Flags of a view that is already disabled (DISABLED bit set). -/
def disabledVFlags : VFlags :=
  { enabledVFlags with
    enabled := false,
    sf := { defaultViewFlags with state := State.DISABLED } }

end Cmvc

namespace Cmvc

/-! ## Theorems: C9 — `cmvc.array.split` -/

theorem jsSliceIndex_nonneg (len : Nat) (i : Int) (h0 : 0 ≤ i) :
    jsSliceIndex len i = min i.toNat len := by
  unfold jsSliceIndex
  split
  · omega
  · rfl

theorem array_split_left (a : List α) (i : Int) (h0 : 0 ≤ i) (hle : i ≤ a.length) :
    (array_split a i).1 = a.take i.toNat := by
  unfold array_split jsSlice
  simp only [jsSliceIndex_nonneg _ _ h0]
  have hi : min i.toNat a.length = i.toNat := by omega
  have h0' : jsSliceIndex a.length 0 = 0 := by unfold jsSliceIndex; simp
  simp [h0', hi]

theorem array_split_right (a : List α) (i : Int) (h0 : 0 ≤ i) (hle : i ≤ a.length) :
    (array_split a i).2 = a.drop i.toNat := by
  unfold array_split jsSlice
  simp only [jsSliceIndex_nonneg _ _ h0]
  have hi : min i.toNat a.length = i.toNat := by omega
  have hlen : jsSliceIndex a.length a.length = a.length := by
    unfold jsSliceIndex; simp
  simp [hlen, hi, List.drop_take]

/-- C9: for every array `a` and integer `index` with
`0 ≤ index ≤ a.length`, `cmvc.array.split(a, index)` returns the pair
whose left component holds the elements `[0, index)`, whose right
component holds the elements `[index, a.length)`, and whose concatenation
is `a`. -/
theorem C9_array_split_correct (a : List α) (i : Int)
    (h0 : 0 ≤ i) (hle : i ≤ a.length) :
    (array_split a i).1 = a.take i.toNat ∧
    (array_split a i).2 = a.drop i.toNat ∧
    (array_split a i).1 ++ (array_split a i).2 = a := by
  refine ⟨array_split_left a i h0 hle, array_split_right a i h0 hle, ?_⟩
  rw [array_split_left a i h0 hle, array_split_right a i h0 hle]
  exact List.take_append_drop _ a

/-- Witness for C9 at `a = [10, 20, 30]`, `index = 1`. -/
theorem C9_array_split_correct_witness :
    (0 : Int) ≤ 1 ∧ (1 : Int) ≤ ([10, 20, 30] : List Int).length ∧
    (array_split ([10, 20, 30] : List Int) 1).1 = [10] ∧
    (array_split ([10, 20, 30] : List Int) 1).2 = [20, 30] := by
  have h := C9_array_split_correct ([10, 20, 30] : List Int) 1
    (by decide) (by decide)
  exact ⟨by decide, by decide, by simpa using h.1, by simpa using h.2.1⟩

/-! ## Theorems: C4 — `cmvc.kvo.bind` / `cmvc.kvo.set` -/

theorem kvoSet_zero {V : Type} (st : KvoState V) (obj : Nat) (prop : String) (v : V) :
    kvoSet 0 st obj prop v = st := rfl

theorem kvoSet_succ {V : Type} (fuel : Nat) (st : KvoState V) (obj : Nat)
    (prop : String) (v : V) :
    kvoSet (fuel + 1) st obj prop v =
      (let st1 : KvoState V := { st with heap := ((obj, prop), v) :: st.heap }
       (st1.observers.filter fun e => e.1 = (obj, prop)).foldl
         (fun acc e => kvoSet fuel acc e.2.1 e.2.2 v) st1) := rfl

theorem foldl_kvoSet_zero {V : Type} (v : V) (l : List (KvoKey × KvoKey))
    (st : KvoState V) :
    l.foldl (fun acc e => kvoSet 0 acc e.2.1 e.2.2 v) st = st := by
  induction l generalizing st with
  | nil => rfl
  | cons x xs ih => rw [List.foldl_cons, kvoSet_zero]; exact ih st

/-- C4: after `cmvc.kvo.bind(srcObj, srcProperty, targetObj,
targetProperty)` on a registry with no other observers, a
`cmvc.kvo.set(srcObj, srcProperty, value)` assigns `value` to
`srcObj[srcProperty]` and propagates the same value, through the fired
property observers, to `targetObj[targetProperty]`. -/
theorem C4_kvo_bind_set_propagates {V : Type} (st : KvoState V) (s t : Nat)
    (sp tp : String) (v : V) (h : st.observers = []) :
    kvoGet (kvoSet 2 (bind st s sp t tp) s sp v) s sp = some v ∧
    kvoGet (kvoSet 2 (bind st s sp t tp) s sp v) t tp = some v := by
  have h2 : (2 : Nat) = 1 + 1 := rfl
  have hobs : (bind st s sp t tp).observers = [((s, sp), (t, tp))] := by
    simp [bind, observeProperty, h]
  have hheap : (bind st s sp t tp).heap = st.heap := rfl
  rw [h2, kvoSet_succ]
  simp only [hobs, hheap, List.filter_cons, List.filter_nil,
    decide_eq_true_eq, if_pos rfl]
  simp only [List.foldl_cons, List.foldl_nil, kvoSet_succ, hobs]
  by_cases hst : ((t, tp) : KvoKey) = (s, sp)
  · simp only [hst, List.filter_cons, List.filter_nil, decide_eq_true_eq, if_pos rfl,
      List.foldl_cons, List.foldl_nil, kvoSet_zero, foldl_kvoSet_zero]
    obtain ⟨h1, h2'⟩ := Prod.mk.injEq .. ▸ hst
    constructor <;> simp [kvoGet, List.find?, hst, h1, h2']
  · simp only [List.filter_cons, List.filter_nil, decide_eq_true_eq, if_neg hst,
      foldl_kvoSet_zero]
    constructor <;> simp [kvoGet, List.find?, hst]

/-- Witness for C4: objects `0` and `1`, properties `"a"` and `"b"`,
value `5`, starting from the empty registry. -/
theorem C4_kvo_bind_set_propagates_witness :
    (({ heap := [], observers := [] } : KvoState Int).observers = []) ∧
    kvoGet (kvoSet 2 (bind ({ heap := [], observers := [] } : KvoState Int) 0 "a" 1 "b") 0 "a" 5) 0 "a" = some 5 ∧
    kvoGet (kvoSet 2 (bind ({ heap := [], observers := [] } : KvoState Int) 0 "a" 1 "b") 0 "a" 5) 1 "b" = some 5 := by
  have h := C4_kvo_bind_set_propagates ({ heap := [], observers := [] } : KvoState Int)
    0 1 "a" "b" 5 rfl
  exact ⟨rfl, h.1, h.2⟩

/-! ## Theorems: C8 — state bits and `supportedStates_` -/

theorem mask32_eq : mask32 = 2 ^ 32 - 1 := by decide

theorem mask32_testBit (j : Nat) : mask32.testBit j = decide (j < 32) := by
  rw [mask32_eq, Nat.testBit_two_pow_sub_one]

theorem testBit_mask32_xor (x j : Nat) :
    (mask32 ^^^ x).testBit j = (decide (j < 32) ^^ x.testBit j) := by
  rw [Nat.testBit_xor, mask32_testBit]

theorem testBit_lt32 {x j : Nat} (hlt : x < 2 ^ 32) (h : x.testBit j = true) :
    j < 32 := by
  by_contra hge
  rw [Nat.testBit_lt_two_pow
    (lt_of_lt_of_le hlt (Nat.pow_le_pow_right (by norm_num) (by omega)))] at h
  exact Bool.false_ne_true h

theorem stateInv_of_subset {state sup : Nat} (hlt : state < 2 ^ 32)
    (h : ∀ j, state.testBit j = true → sup.testBit j = true) :
    state &&& (mask32 ^^^ sup) = 0 := by
  apply Nat.eq_of_testBit_eq
  intro j
  simp only [Nat.testBit_land, testBit_mask32_xor, Nat.zero_testBit]
  cases hs : state.testBit j
  · simp
  · have hsup := h j hs
    have hj32 : j < 32 := testBit_lt32 hlt hs
    simp [hsup, hj32]

theorem subset_of_stateInv {state sup : Nat} (hlt : state < 2 ^ 32)
    (hinv : state &&& (mask32 ^^^ sup) = 0) :
    ∀ j, state.testBit j = true → sup.testBit j = true := by
  intro j hj
  have h := congrArg (fun n => n.testBit j) hinv
  have hj32 : j < 32 := testBit_lt32 hlt hj
  simp only [Nat.testBit_land, testBit_mask32_xor, Nat.zero_testBit, hj,
    Bool.true_and] at h
  rw [decide_eq_true hj32] at h
  simpa using h

theorem isSupportedState_two_pow (f : StateFlags) (k : Nat) :
    isSupportedState f (2 ^ k) = f.supportedStates.testBit k := by
  unfold isSupportedState
  rw [Nat.and_two_pow]
  cases h : f.supportedStates.testBit k
  · simp
  · simp [(Nat.two_pow_pos k).ne']

theorem hasState_two_pow (f : StateFlags) (k : Nat) :
    hasState f (2 ^ k) = f.state.testBit k := by
  unfold hasState
  rw [Nat.and_two_pow]
  cases h : f.state.testBit k
  · simp
  · simp [(Nat.two_pow_pos k).ne']

theorem setState_eq_of_guard (f : StateFlags) (s : Nat)
    (h : (isSupportedState f s && (true != hasState f s)) = true) :
    setState f s true = { f with state := f.state ||| s } := by
  unfold setState
  rw [if_pos h, if_pos rfl]

theorem setState_clear_of_guard (f : StateFlags) (s : Nat)
    (h : (isSupportedState f s && (false != hasState f s)) = true) :
    setState f s false = { f with state := f.state &&& (mask32 ^^^ s) } := by
  unfold setState
  rw [if_pos h, if_neg (by simp)]

theorem setState_noop (f : StateFlags) (s : Nat) (enable : Bool)
    (h : ¬ (isSupportedState f s && (enable != hasState f s)) = true) :
    setState f s enable = f := by
  unfold setState
  rw [if_neg h]

/-- C8 counterexample: `setStateInternal` (called by renderers during
element decoration, and documented to not reject unsupported states) sets
the unsupported `HOVER` bit on a view that supports only `DISABLED`,
breaking the claimed invariant `(state_ AND NOT supportedStates_) == 0`;
so not every state-setting operation leaves `state_` unchanged on an
unsupported state. -/
theorem C8_counterexample :
    stateInv disabledOnlyFlags ∧
    isSupportedState disabledOnlyFlags State.HOVER = false ∧
    (setStateInternal disabledOnlyFlags State.HOVER).state ≠ disabledOnlyFlags.state ∧
    ¬ stateInv (setStateInternal disabledOnlyFlags State.HOVER) := by
  refine ⟨by decide, by decide, by decide, by decide⟩

/-- C8 amended: for every view and every single state bit, `setState`
leaves `state_` unchanged when the bit is unsupported, and both `setState`
and (on its non-throwing path) `setSupportedState` preserve the invariant
`(state_ AND NOT supportedStates_) == 0`; `setStateInternal`, which is
documented to bypass the support check, is excepted. -/
theorem C8_amended (f : StateFlags) (k : Nat) (enable support : Bool)
    (hk : k < 32) (hstate : f.state < 2 ^ 32) (hinv : stateInv f) :
    (isSupportedState f (2 ^ k) = false → setState f (2 ^ k) enable = f) ∧
    stateInv (setState f (2 ^ k) enable) ∧
    (∀ g, setSupportedState f (2 ^ k) support = Except.ok g → stateInv g) := by
  have hsub : ∀ j, f.state.testBit j = true → f.supportedStates.testBit j = true :=
    subset_of_stateInv hstate hinv
  refine ⟨?_, ?_, ?_⟩
  · intro hns
    exact setState_noop f _ enable (by simp [hns])
  · by_cases hguard : (isSupportedState f (2 ^ k) && (enable != hasState f (2 ^ k))) = true
    · have hsupk : f.supportedStates.testBit k = true := by
        have := (Bool.and_eq_true_iff.mp hguard).1
        rwa [isSupportedState_two_pow] at this
      cases enable with
      | true =>
        rw [setState_eq_of_guard f _ hguard]
        show (f.state ||| 2 ^ k) &&& (mask32 ^^^ f.supportedStates) = 0
        apply stateInv_of_subset
        · exact Nat.bitwise_lt_two_pow hstate (Nat.pow_lt_pow_right (by norm_num) hk)
        · intro j hj
          rw [Nat.testBit_lor] at hj
          rcases Bool.or_eq_true_iff.mp hj with hj | hj
          · exact hsub j hj
          · rw [Nat.testBit_two_pow] at hj
            exact (of_decide_eq_true hj) ▸ hsupk
      | false =>
        rw [setState_clear_of_guard f _ hguard]
        show (f.state &&& (mask32 ^^^ 2 ^ k)) &&& (mask32 ^^^ f.supportedStates) = 0
        apply stateInv_of_subset
        · exact lt_of_le_of_lt Nat.and_le_left hstate
        · intro j hj
          rw [Nat.testBit_land] at hj
          exact hsub j (Bool.and_eq_true_iff.mp hj).1
    · rw [setState_noop f _ enable hguard]
      exact hinv
  · intro g hg
    unfold setSupportedState at hg
    split at hg
    · exact absurd hg (by simp)
    · rw [Except.ok.injEq] at hg
      subst hg
      cases support with
      | true =>
        show stateInv _
        unfold stateInv
        have h1 : (if !true && hasState f (2 ^ k) then setState f (2 ^ k) false else f) = f := by
          simp
        rw [h1]
        show f.state &&& (mask32 ^^^ (f.supportedStates ||| 2 ^ k)) = 0
        apply stateInv_of_subset hstate
        intro j hj
        rw [Nat.testBit_lor]
        exact Bool.or_eq_true_iff.mpr (Or.inl (hsub j hj))
      | false =>
        by_cases hh : hasState f (2 ^ k) = true
        · have hstk : f.state.testBit k = true := (hasState_two_pow f k) ▸ hh
          have hsupk : f.supportedStates.testBit k = true := hsub k hstk
          have h1 : (if !false && hasState f (2 ^ k) then setState f (2 ^ k) false else f) =
              setState f (2 ^ k) false := by
            simp [hh]
          rw [h1, setState_clear_of_guard f _ (by simp [isSupportedState_two_pow, hsupk, hh])]
          show stateInv _
          unfold stateInv
          show (f.state &&& (mask32 ^^^ 2 ^ k)) &&&
              (mask32 ^^^ (f.supportedStates &&& (mask32 ^^^ 2 ^ k))) = 0
          apply stateInv_of_subset
          · exact lt_of_le_of_lt Nat.and_le_left hstate
          · intro j hj
            rw [Nat.testBit_land] at hj
            obtain ⟨hj1, hj2⟩ := Bool.and_eq_true_iff.mp hj
            rw [Nat.testBit_land]
            exact Bool.and_eq_true_iff.mpr ⟨hsub j hj1, hj2⟩
        · have hstk : f.state.testBit k = false := by
            cases ht : f.state.testBit k
            · rfl
            · exact absurd ((hasState_two_pow f k).trans ht) hh
          have h1 : (if !false && hasState f (2 ^ k) then setState f (2 ^ k) false else f) = f := by
            simp [hh]
          rw [h1]
          show stateInv _
          unfold stateInv
          show f.state &&& (mask32 ^^^ (f.supportedStates &&& (mask32 ^^^ 2 ^ k))) = 0
          apply stateInv_of_subset hstate
          intro j hj
          have hj32 : j < 32 := testBit_lt32 hstate hj
          have hkj : k ≠ j := fun hkj => by
            rw [← hkj, hstk] at hj
            exact Bool.false_ne_true hj
          rw [Nat.testBit_land]
          refine Bool.and_eq_true_iff.mpr ⟨hsub j hj, ?_⟩
          rw [testBit_mask32_xor, Nat.testBit_two_pow]
          simp [hj32, hkj]

/-- Witness for C8 amended: the default `cmvc.ui.View` state flags,
setting the unsupported `OPENED` bit (`2^6`) leaves everything unchanged. -/
theorem C8_amended_witness :
    (6 : Nat) < 32 ∧ defaultViewFlags.state < 2 ^ 32 ∧
    (isSupportedState defaultViewFlags (2 ^ 6) = false →
      setState defaultViewFlags (2 ^ 6) true = defaultViewFlags) := by
  have h := C8_amended defaultViewFlags 6 true true
    (by decide) (by decide) (by decide)
  exact ⟨by decide, by decide, h.1⟩

/-! ## Theorems: C6 — sentinel dispatch redirection -/

/-- C6: evaluating the `case "number"` arm of src/unnamed/part_001 at the
`Self` sentinel shows the fall-through bug: the listener context resolves
to `this.getParent()` (with `fn = context.dispatchEvent`), not to the view
itself as claimed; the `Parent` and `Child` sentinels of
`cmvc.events.attachEventHandlers` do redirect to the parent's
`dispatchEvent` and to `dispatchEventToChild`, which resolves the child by
DOM id lookup from the event target (here: target `"inner"` inside node
`"child1"`, owned by child `7`). -/
theorem C6_sentinel_dispatch :
    viewEventNumberCase001 EventDispatch001.Self =
      Except.ok (Ctx.parentOfTarget, FnRef.dispatchEvent) ∧
    Ctx.parentOfTarget ≠ Ctx.target ∧
    attachOne (JsHandler.num EventDispatch.Parent) =
      Except.ok (Ctx.parentOfTarget, FnRef.dispatchEvent) ∧
    attachOne (JsHandler.num EventDispatch.Child) =
      Except.ok (Ctx.target, FnRef.dispatchEventToChild) ∧
    dispatchEventToChild [("child1", 7)] ["inner", "child1"] = some 7 := by
  refine ⟨rfl, by decide, rfl, rfl, rfl⟩

/-! ## Theorems: C5 — synchronous errors on programmer misuse -/

theorem attachOne_isOk (h : JsHandler) : (attachOne h).isOk = goodHandler h := by
  cases h with
  | fn => rfl
  | str s =>
    cases hb : beforeLastDot s.data <;>
      simp [attachOne, hb, goodHandler, Except.isOk, Except.toBool]
  | num n =>
    by_cases h1 : n = EventDispatch.Parent
    · simp [attachOne, h1, goodHandler, Except.isOk, Except.toBool,
        EventDispatch.Parent, EventDispatch.Child]
    · by_cases h2 : n = EventDispatch.Child <;>
      · simp only [EventDispatch.Parent, EventDispatch.Child] at h1 h2
        simp [attachOne, h1, h2, goodHandler, Except.isOk, Except.toBool,
          EventDispatch.Parent, EventDispatch.Child]
  | other => rfl

theorem attachEventHandlers_cons (evt : String) (h : JsHandler)
    (rest : List (String × JsHandler)) :
    attachEventHandlers ((evt, h) :: rest) =
      (match attachOne h with
       | .error e => .error e
       | .ok r =>
         match attachEventHandlers rest with
         | .error e => .error e
         | .ok rs => .ok ((evt, r) :: rs)) := rfl

theorem attachEventHandlers_isOk (evs : List (String × JsHandler)) :
    (attachEventHandlers evs).isOk = evs.all fun p => goodHandler p.2 := by
  induction evs with
  | nil => rfl
  | cons p rest ih =>
    obtain ⟨evt, h⟩ := p
    rw [List.all_cons, ← ih, ← attachOne_isOk, attachEventHandlers_cons]
    cases hao : attachOne h with
    | error e => simp [Except.isOk, Except.toBool]
    | ok r =>
      cases har : attachEventHandlers rest with
      | error e => simp [Except.isOk, Except.toBool]
      | ok rs => simp [Except.isOk, Except.toBool]

/-- C5: the documented misuse conditions raise synchronous errors and only
they do — rendering an already-in-document view throws (and rendering an
unrendered one succeeds); `setKeyEventTarget` on a non-focusable view
throws the documented message (and succeeds on a focusable one); a
declared handler that is a number other than the recognised sentinels
throws the documented reference error, a handler that is neither function,
string nor number throws the documented type error, and an event-handler
map attaches without throwing exactly when every handler is a function, a
string, or a sentinel number. -/
theorem C5_misuse_errors (v : ViewR) (kv : KeyTargetView) (e : Option Nat)
    (evs : List (String × JsHandler)) (n : Int)
    (hn1 : n ≠ EventDispatch.Parent) (hn2 : n ≠ EventDispatch.Child) :
    (v.inDocument = true → render_ v = Except.error "Component already rendered") ∧
    (v.inDocument = false → render_ v = Except.ok (renderView v)) ∧
    (kv.focusable = false →
      setKeyEventTarget kv e =
        Except.error "Can't set key event target for container that doesn't support keyboard focus!") ∧
    (kv.focusable = true →
      setKeyEventTarget kv e = Except.ok { kv with keyEventTarget := e }) ∧
    attachOne (JsHandler.num n) = Except.error unknownRefError ∧
    attachOne JsHandler.other = Except.error unknownTypeError ∧
    (attachEventHandlers evs).isOk = (evs.all fun p => goodHandler p.2) := by
  refine ⟨?_, ?_, ?_, ?_, ?_, rfl, attachEventHandlers_isOk evs⟩
  · intro h
    unfold render_
    rw [if_pos h]
  · intro h
    unfold render_
    rw [if_neg (by simp [h])]
  · intro h
    unfold setKeyEventTarget
    rw [if_neg (by simp [h])]
  · intro h
    unfold setKeyEventTarget
    rw [if_pos h]
  · simp only [attachOne]
    rw [if_neg hn1, if_neg hn2]

/-- Witness for C5: a rendered view, a non-focusable view, an event map
with one function handler, and the unrecognised sentinel number `3`. -/
theorem C5_misuse_errors_witness :
    (3 : Int) ≠ EventDispatch.Parent ∧ (3 : Int) ≠ EventDispatch.Child ∧
    (render_ { childViews := [], inDocument := true, domChildNodes := [] } =
      Except.error "Component already rendered") ∧
    (setKeyEventTarget { focusable := false, keyEventTarget := none, inDocument := false } none =
      Except.error "Can't set key event target for container that doesn't support keyboard focus!") ∧
    attachOne (JsHandler.num 3) = Except.error unknownRefError ∧
    (attachEventHandlers [("click", JsHandler.fn)]).isOk = true := by
  have h := C5_misuse_errors
    { childViews := [], inDocument := true, domChildNodes := [] }
    { focusable := false, keyEventTarget := none, inDocument := false }
    none [("click", JsHandler.fn)] 3 (by decide) (by decide)
  exact ⟨by decide, by decide, h.1 rfl, h.2.2.1 rfl, h.2.2.2.2.1, by
    rw [h.2.2.2.2.2.2]; rfl⟩

/-! ## Theorems: C2 — highlight navigation -/

/-- C2: on the empty container `highlightNext` / `highlightPrevious`
return `false` and change nothing (as claimed); but on a container with
two highlightable children, `highlightNext` returns `true` while leaving
`highlightedIndex_` at `-1`, and a second `highlightNext` does exactly the
same — the index never moves, because the documented boolean
`setHighlighted` is shadowed by the later duplicate item-overload (see
the definitions), so no HIGHLIGHT event is ever dispatched and
`handleHighlightItem` never runs.  The claim instead requires the index
to advance to `0` and then `1`. -/
theorem C2_highlight_navigation_dead :
    highlightNext emptyCont = (emptyCont, false) ∧
    highlightPrevious emptyCont = (emptyCont, false) ∧
    canHighlightItem (highlightableChild "a") = true ∧
    highlightNext twoChildCont = (twoChildCont, true) ∧
    (highlightNext twoChildCont).1.highlightedIndex = -1 ∧
    highlightNext (highlightNext twoChildCont).1 = (twoChildCont, true) ∧
    (highlightNext (highlightNext twoChildCont).1).1.highlightedIndex ≠ 1 := by
  refine ⟨by decide, by decide, by decide, by decide, by decide, by decide, by decide⟩

/-! ## Theorems: C7 — the highlighted-index invariant -/

/-- C7: the claimed invariant is not preserved.  Starting from an empty
container: `addChildAt` a highlightable child at index 0, a HIGHLIGHT
event from that child (`handleHighlightItem`) sets `highlightedIndex_ =
0`, and then `removeChild` of that child leaves `highlightedIndex_ = 0`
while the child list becomes empty — `highlightedIndex_` is neither `-1`
nor a valid index.  (The `control.setHighlighted(false)` that the
removal path relies on to reset the index runs the shadowing
item-overload and does nothing.) -/
theorem C7_highlight_index_dangles :
    highlightInv emptyCont ∧
    highlightInv (handleHighlightItem (addChildAt emptyCont (highlightableChild "a") 0) "a") ∧
    (handleHighlightItem (addChildAt emptyCont (highlightableChild "a") 0) "a").highlightedIndex = 0 ∧
    (removeChild (handleHighlightItem (addChildAt emptyCont (highlightableChild "a") 0) "a") "a").childList = [] ∧
    (removeChild (handleHighlightItem (addChildAt emptyCont (highlightableChild "a") 0) "a") "a").highlightedIndex = 0 ∧
    ¬ highlightInv (removeChild (handleHighlightItem (addChildAt emptyCont (highlightableChild "a") 0) "a") "a") := by
  refine ⟨by decide, by decide, by decide, by decide, by decide, by decide⟩

/-! ## Theorems: C1 — declared children are added and rendered in order -/

theorem collapseAux_nil (b : Bool) : collapseAux b [] = [] := rfl

theorem collapseAux_cons (b : Bool) (c : Char) (l : List Char) :
    collapseAux b (c :: l) =
      if isJsWs c then (if b then collapseAux true l else ' ' :: collapseAux true l)
      else c :: collapseAux false l := rfl

theorem collapseAux_append_nonws (name rest : List Char)
    (h : ∀ c ∈ name, isJsWs c = false) :
    collapseAux false (name ++ rest) = name ++ collapseAux false rest := by
  induction name with
  | nil => rfl
  | cons c name' ih =>
    have hc : isJsWs c = false := h c (List.mem_cons_self c name')
    have h' : ∀ x ∈ name', isJsWs x = false := fun x hx => h x (List.mem_cons_of_mem c hx)
    rw [List.cons_append, collapseAux_cons, hc]
    simp only [Bool.false_eq_true, if_false, List.cons_append]
    rw [ih h']

theorem collapseAux_true_cons (c : Char) (l : List Char) (hc : isJsWs c = false) :
    collapseAux true (c :: l) = collapseAux false (c :: l) := by
  rw [collapseAux_cons, collapseAux_cons, hc]
  simp

theorem collapseAux_false_space (l : List Char) :
    collapseAux false (' ' :: l) = ' ' :: collapseAux true l := by
  rw [collapseAux_cons]
  simp [isJsWs]

theorem joinWords_singleton (n : List Char) : joinWords [n] = n := rfl

theorem joinWords_cons_cons (n : List Char) (m : List Char) (ns : List (List Char)) :
    joinWords (n :: m :: ns) = n ++ ' ' :: joinWords (m :: ns) := rfl

theorem joinWords_head_cons (c : Char) (m : List Char) (ns : List (List Char)) :
    ∃ t, joinWords ((c :: m) :: ns) = c :: t := by
  cases ns with
  | nil => exact ⟨m, rfl⟩
  | cons x xs => exact ⟨m ++ ' ' :: joinWords (x :: xs), rfl⟩

theorem joinWords_ne_nil (m : List Char) (ms : List (List Char)) (hm : m ≠ []) :
    joinWords (m :: ms) ≠ [] := by
  obtain ⟨c, m', rfl⟩ := List.exists_cons_of_ne_nil hm
  obtain ⟨t, ht⟩ := joinWords_head_cons c m' ms
  rw [ht]
  simp

theorem collapseAux_joinWords (names : List (List Char))
    (h : ∀ n ∈ names, n ≠ [] ∧ ∀ c ∈ n, isJsWs c = false) :
    collapseAux false (joinWords names) = joinWords names := by
  induction names with
  | nil => rfl
  | cons n ns ih =>
    obtain ⟨hne, hnw⟩ := h n (List.mem_cons_self n ns)
    have hrest : ∀ m ∈ ns, m ≠ [] ∧ ∀ c ∈ m, isJsWs c = false :=
      fun m hm => h m (List.mem_cons_of_mem n hm)
    cases ns with
    | nil =>
      rw [joinWords_singleton]
      have := collapseAux_append_nonws n [] hnw
      simpa [collapseAux_nil] using this
    | cons m ms =>
      rw [joinWords_cons_cons, collapseAux_append_nonws n _ hnw]
      congr 1
      obtain ⟨hm, hmw⟩ := hrest m (List.mem_cons_self m ms)
      obtain ⟨c, m', rfl⟩ := List.exists_cons_of_ne_nil hm
      obtain ⟨t, ht⟩ := joinWords_head_cons c m' ms
      rw [collapseAux_false_space, ht,
        collapseAux_true_cons c t (hmw c (List.mem_cons_self c m')), ← ht,
        ih hrest]

theorem dropWhile_eq_self_of_head (l : List Char)
    (h : ∀ c t, l = c :: t → isJsWs c = false) :
    l.dropWhile isJsWs = l := by
  cases l with
  | nil => rfl
  | cons c t =>
    rw [List.dropWhile_cons, h c t rfl]
    simp

theorem joinWords_head_nonws (names : List (List Char))
    (h : ∀ n ∈ names, n ≠ [] ∧ ∀ c ∈ n, isJsWs c = false) :
    ∀ c t, joinWords names = c :: t → isJsWs c = false := by
  intro c t hj
  cases names with
  | nil => simp [joinWords] at hj
  | cons n ns =>
    obtain ⟨hne, hnw⟩ := h n (List.mem_cons_self n ns)
    obtain ⟨c0, n', rfl⟩ := List.exists_cons_of_ne_nil hne
    obtain ⟨t0, ht0⟩ := joinWords_head_cons c0 n' ns
    rw [ht0] at hj
    injection hj with hceq _
    exact hceq ▸ hnw c0 (List.mem_cons_self c0 n')

theorem joinWords_getLast_nonws (names : List (List Char))
    (h : ∀ n ∈ names, n ≠ [] ∧ ∀ c ∈ n, isJsWs c = false) :
    ∀ c t, (joinWords names).reverse = c :: t → isJsWs c = false := by
  induction names with
  | nil =>
    intro c t hj
    simp [joinWords] at hj
  | cons n ns ih =>
    intro c t hj
    obtain ⟨hne, hnw⟩ := h n (List.mem_cons_self n ns)
    have hrest : ∀ m ∈ ns, m ≠ [] ∧ ∀ c ∈ m, isJsWs c = false :=
      fun m hm => h m (List.mem_cons_of_mem n hm)
    cases ns with
    | nil =>
      have hc : c ∈ n := by
        rw [← List.mem_reverse, joinWords_singleton] at *
        rw [hj]
        exact List.mem_cons_self c t
      exact hnw c hc
    | cons m ms =>
      obtain ⟨hm, -⟩ := hrest m (List.mem_cons_self m ms)
      have hJne : (joinWords (m :: ms)).reverse ≠ [] := by
        intro hnil
        exact joinWords_ne_nil m ms hm (by simpa using congrArg List.reverse hnil)
      obtain ⟨c1, t1, ht1⟩ := List.exists_cons_of_ne_nil hJne
      rw [joinWords_cons_cons, List.reverse_append, List.reverse_cons, ht1] at hj
      simp only [List.cons_append, List.append_assoc] at hj
      injection hj with hceq _
      exact hceq ▸ ih hrest c1 t1 ht1

theorem trimWs_joinWords (names : List (List Char))
    (h : ∀ n ∈ names, n ≠ [] ∧ ∀ c ∈ n, isJsWs c = false) :
    trimWs (joinWords names) = joinWords names := by
  unfold trimWs
  rw [dropWhile_eq_self_of_head _ (joinWords_head_nonws names h),
    dropWhile_eq_self_of_head _ (joinWords_getLast_nonws names h),
    List.reverse_reverse]

theorem collapseWhitespace_joinWords (names : List (List Char))
    (h : ∀ n ∈ names, n ≠ [] ∧ ∀ c ∈ n, isJsWs c = false) :
    collapseWhitespace (joinWords names) = joinWords names := by
  unfold collapseWhitespace
  rw [collapseAux_joinWords names h, trimWs_joinWords names h]

theorem splitSpaceAux_nil (acc : List Char) :
    splitSpaceAux [] acc = [acc.reverse] := rfl

theorem splitSpaceAux_cons (c : Char) (rest acc : List Char) :
    splitSpaceAux (c :: rest) acc =
      if c = ' ' then acc.reverse :: splitSpaceAux rest []
      else splitSpaceAux rest (c :: acc) := rfl

theorem splitSpaceAux_no_space (n acc : List Char) (h : ∀ c ∈ n, c ≠ ' ') :
    splitSpaceAux n acc = [acc.reverse ++ n] := by
  induction n generalizing acc with
  | nil => simp [splitSpaceAux_nil]
  | cons c n' ih =>
    have hc : c ≠ ' ' := h c (List.mem_cons_self c n')
    rw [splitSpaceAux_cons, if_neg hc,
      ih (c :: acc) (fun x hx => h x (List.mem_cons_of_mem c hx))]
    simp

theorem splitSpaceAux_sep (n rest acc : List Char) (h : ∀ c ∈ n, c ≠ ' ') :
    splitSpaceAux (n ++ ' ' :: rest) acc =
      (acc.reverse ++ n) :: splitSpaceAux rest [] := by
  induction n generalizing acc with
  | nil =>
    rw [List.nil_append, splitSpaceAux_cons, if_pos rfl]
    simp
  | cons c n' ih =>
    have hc : c ≠ ' ' := h c (List.mem_cons_self c n')
    rw [List.cons_append, splitSpaceAux_cons, if_neg hc,
      ih (c :: acc) (fun x hx => h x (List.mem_cons_of_mem c hx))]
    simp

theorem splitSpace_joinWords (names : List (List Char)) (hne : names ≠ [])
    (h : ∀ n ∈ names, n ≠ [] ∧ ∀ c ∈ n, isJsWs c = false) :
    splitSpace (joinWords names) = names := by
  induction names with
  | nil => exact absurd rfl hne
  | cons n ns ih =>
    have hnw : ∀ c ∈ n, c ≠ ' ' := by
      intro c hc hsp
      have := (h n (List.mem_cons_self n ns)).2 c hc
      rw [hsp] at this
      simp [isJsWs] at this
    have hrest : ∀ m ∈ ns, m ≠ [] ∧ ∀ c ∈ m, isJsWs c = false :=
      fun m hm => h m (List.mem_cons_of_mem n hm)
    cases ns with
    | nil =>
      rw [joinWords_singleton]
      unfold splitSpace
      rw [splitSpaceAux_no_space n [] hnw]
      rfl
    | cons m ms =>
      rw [joinWords_cons_cons]
      unfold splitSpace
      rw [splitSpaceAux_sep n _ [] hnw]
      rw [List.reverse_nil, List.nil_append,
        show splitSpaceAux (joinWords (m :: ms)) [] = splitSpace (joinWords (m :: ms)) from rfl,
        ih (by simp) hrest]

/-- For a `children` string of nonempty, whitespace-free names joined by
single spaces, `cmvc.string.words` recovers exactly the names, in
order. -/
theorem words_joinWords (names : List (List Char)) (hne : names ≠ [])
    (h : ∀ n ∈ names, n ≠ [] ∧ ∀ c ∈ n, isJsWs c = false) :
    words (joinWords names) = names := by
  unfold words
  rw [collapseWhitespace_joinWords names h, splitSpace_joinWords names hne h]

/-- A child view after `child.render(element)`. -/
theorem renderChildStep_unrendered (v : ViewR) (acc : List ChildView)
    (c : ChildView) (hc : c.inDocument = false ∧ c.hasElement = false) :
    renderChildStep (v, acc) c =
      ({ v with domChildNodes := v.domChildNodes ++ [c.id] },
       acc ++ [{ c with hasElement := true, inDocument := true }]) := by
  unfold renderChildStep renderChildInto
  rw [hc.1, hc.2]
  rfl

theorem renderChildren_foldl (cs : List ChildView) (v : ViewR) (acc : List ChildView)
    (h : ∀ c ∈ cs, c.inDocument = false ∧ c.hasElement = false) :
    cs.foldl renderChildStep (v, acc) =
      ({ v with domChildNodes := v.domChildNodes ++ cs.map ChildView.id },
       acc ++ cs.map fun c => { c with hasElement := true, inDocument := true }) := by
  induction cs generalizing v acc with
  | nil => simp
  | cons c cs ih =>
    rw [List.foldl_cons,
      renderChildStep_unrendered v acc c (h c (List.mem_cons_self c cs)),
      ih _ _ (fun x hx => h x (List.mem_cons_of_mem c hx))]
    simp

/-- C1: a view declared with a `children` string that lists N nonempty,
whitespace-free names separated by single spaces gets exactly N child
views, in the order the names appear; rendering the view (whose
`enterDocument` calls `renderChildren`) renders each not-yet-in-document
child into the view's root element in that same order, so the root
element's child nodes are exactly the N declared names in declaration
order. -/
theorem C1_declared_children_rendered (names : List (List Char))
    (h : ∀ n ∈ names, n ≠ [] ∧ ∀ c ∈ n, isJsWs c = false) :
    (mkView (joinWords names)).childViews.length = names.length ∧
    (mkView (joinWords names)).childViews.map ChildView.id = names ∧
    (∀ c ∈ (mkView (joinWords names)).childViews,
      c.inDocument = false ∧ c.hasElement = false) ∧
    (renderView (mkView (joinWords names))).domChildNodes = names ∧
    (renderView (mkView (joinWords names))).childViews.map ChildView.id = names ∧
    (∀ c ∈ (renderView (mkView (joinWords names))).childViews,
      c.inDocument = true) := by
  cases names with
  | nil => decide
  | cons n ns =>
    have hjne : joinWords (n :: ns) ≠ [] :=
      joinWords_ne_nil n ns (h n (List.mem_cons_self n ns)).1
    have hwords : words (joinWords (n :: ns)) = n :: ns :=
      words_joinWords (n :: ns) (by simp) h
    have hcv : (mkView (joinWords (n :: ns))).childViews =
        (n :: ns).map fun e =>
          ({ id := e, hasElement := false, inDocument := false } : ChildView) := by
      unfold mkView
      rw [if_neg hjne, hwords]
    have hunrendered : ∀ c ∈ (mkView (joinWords (n :: ns))).childViews,
        c.inDocument = false ∧ c.hasElement = false := by
      intro c hc
      rw [hcv] at hc
      obtain ⟨e, -, rfl⟩ := List.mem_map.mp hc
      exact ⟨rfl, rfl⟩
    have hrender : renderView (mkView (joinWords (n :: ns))) =
        { childViews := (mkView (joinWords (n :: ns))).childViews.map
            fun c => { c with hasElement := true, inDocument := true }
          inDocument := true
          domChildNodes := (mkView (joinWords (n :: ns))).childViews.map ChildView.id } := by
      unfold renderView renderChildren
      rw [if_pos rfl]
      have harg : ({ mkView (joinWords (n :: ns)) with inDocument := true } : ViewR).childViews =
          (mkView (joinWords (n :: ns))).childViews := rfl
      rw [harg, renderChildren_foldl _ _ _ hunrendered]
      simp [mkView]
    refine ⟨?_, ?_, hunrendered, ?_, ?_, ?_⟩
    · rw [hcv, List.length_map]
    · rw [hcv, List.map_map]
      exact (List.map_congr_left fun a _ => rfl).trans (List.map_id _)
    · rw [hrender]
      show (mkView (joinWords (n :: ns))).childViews.map ChildView.id = n :: ns
      rw [hcv, List.map_map]
      exact (List.map_congr_left fun a _ => rfl).trans (List.map_id _)
    · rw [hrender]
      show ((mkView (joinWords (n :: ns))).childViews.map _).map ChildView.id = n :: ns
      rw [hcv, List.map_map, List.map_map]
      exact (List.map_congr_left fun a _ => rfl).trans (List.map_id _)
    · rw [hrender]
      intro c hc
      simp only [List.mem_map] at hc
      obtain ⟨x, -, rfl⟩ := hc
      rfl

/-- Witness for C1 with `children = "header body"`. -/
theorem C1_declared_children_rendered_witness :
    (∀ n ∈ ["header".data, "body".data], n ≠ [] ∧ ∀ c ∈ n, isJsWs c = false) ∧
    (mkView (joinWords ["header".data, "body".data])).childViews.length = 2 ∧
    (renderView (mkView (joinWords ["header".data, "body".data]))).domChildNodes =
      ["header".data, "body".data] := by
  have h := C1_declared_children_rendered ["header".data, "body".data] (by decide)
  exact ⟨by decide, by rw [h.1]; rfl, h.2.2.2.1⟩

/-! ## Theorems: C3 — `setEnabled` cascading (src/view.js) -/

theorem setState_state (f : StateFlags) (s : Nat) (b : Bool) :
    (setState f s b).state =
      if isSupportedState f s && (b != hasState f s) then
        (if b then f.state ||| s else f.state &&& (mask32 ^^^ s))
      else f.state := by
  unfold setState
  split <;> rfl

theorem setState_supported (f : StateFlags) (s : Nat) (b : Bool) :
    (setState f s b).supportedStates = f.supportedStates := by
  unfold setState
  split <;> rfl

theorem isSupportedState_setState (f : StateFlags) (s t : Nat) (b : Bool) :
    isSupportedState (setState f s b) t = isSupportedState f t := by
  unfold isSupportedState
  rw [setState_supported]

theorem DISABLED_eq_two_pow : State.DISABLED = 2 ^ 0 := by decide

theorem hasStateD_setState (f : StateFlags) (s : Nat) (b : Bool)
    (h0 : s.testBit 0 = false) (hm : (mask32 ^^^ s).testBit 0 = true) :
    hasState (setState f s b) State.DISABLED = hasState f State.DISABLED := by
  rw [DISABLED_eq_two_pow, hasState_two_pow, hasState_two_pow, setState_state]
  split
  · cases b with
    | true => rw [if_pos rfl, Nat.testBit_lor, h0, Bool.or_false]
    | false => rw [if_neg (by simp), Nat.testBit_land, hm, Bool.and_true]
  · rfl

theorem setActiveFalse_enabled (f : VFlags) : (setActiveFalse f).enabled = f.enabled := by
  unfold setActiveFalse; split <;> rfl

theorem setActiveFalse_wasDisabled (f : VFlags) :
    (setActiveFalse f).wasDisabled = f.wasDisabled := by
  unfold setActiveFalse; split <;> rfl

theorem setActiveFalse_disposed (f : VFlags) : (setActiveFalse f).disposed = f.disposed := by
  unfold setActiveFalse; split <;> rfl

theorem setActiveFalse_hasStateD (f : VFlags) :
    hasState (setActiveFalse f).sf State.DISABLED = hasState f.sf State.DISABLED := by
  unfold setActiveFalse
  split
  · exact hasStateD_setState f.sf State.ACTIVE false (by decide) (by decide)
  · rfl

theorem setActiveFalse_supported (f : VFlags) :
    isSupportedState (setActiveFalse f).sf State.DISABLED =
      isSupportedState f.sf State.DISABLED := by
  unfold setActiveFalse
  split
  · exact isSupportedState_setState f.sf State.ACTIVE State.DISABLED false
  · rfl

theorem setEnabledTail_enabled (e : Bool) (f : VFlags) :
    (setEnabledTail e f).enabled = f.enabled := by
  unfold setEnabledTail
  by_cases hv : f.visible = true <;> by_cases hf : f.focusable = true <;>
    simp [hv, hf]

theorem setEnabledTail_wasDisabled (e : Bool) (f : VFlags) :
    (setEnabledTail e f).wasDisabled = f.wasDisabled := by
  unfold setEnabledTail
  by_cases hv : f.visible = true <;> by_cases hf : f.focusable = true <;>
    simp [hv, hf]

theorem setEnabledTail_disposed (e : Bool) (f : VFlags) :
    (setEnabledTail e f).disposed = f.disposed := by
  unfold setEnabledTail
  by_cases hv : f.visible = true <;> by_cases hf : f.focusable = true <;>
    simp [hv, hf]

theorem setEnabledTail_sf (e : Bool) (f : VFlags) :
    (setEnabledTail e f).sf = setState f.sf State.DISABLED (!e) := by
  unfold setEnabledTail
  by_cases hv : f.visible = true <;> by_cases hf : f.focusable = true <;>
    simp [hv, hf]

theorem hasStateD_set_true (sf : StateFlags)
    (hsup : isSupportedState sf State.DISABLED = true)
    (hns : hasState sf State.DISABLED = false) :
    hasState (setState sf State.DISABLED true) State.DISABLED = true := by
  have h1 : hasState (setState sf State.DISABLED true) State.DISABLED =
      (setState sf State.DISABLED true).state.testBit 0 := by
    rw [DISABLED_eq_two_pow, hasState_two_pow]
  rw [h1, setState_state, hsup, hns]
  rw [if_pos (by decide), if_pos rfl, Nat.testBit_lor]
  have hd : State.DISABLED.testBit 0 = true := by decide
  rw [hd, Bool.or_true]

theorem setEnabled_node_disable (pe : Option Bool) (f : VFlags) (cs : List VTree)
    (hpe : isParentDisabled pe = false)
    (hsup : isSupportedState f.sf State.DISABLED = true)
    (hns : hasState f.sf State.DISABLED = false)
    (hdis : f.disposed = false)
    (hen : f.enabled = true) :
    setEnabled pe false (.node f cs) =
      .node (setEnabledTail false
        { setActiveFalse { f with enabled := false } with mouseButtonPressed := false })
        (disableChildren cs) := by
  have htrans : isTransitionAllowed f State.DISABLED (!false) = true := by
    unfold isTransitionAllowed
    rw [hsup, hns, hdis]
    rfl
  rw [setEnabled]
  rw [hpe, htrans, hen]
  simp

theorem setEnabled_node_enable (pe : Option Bool) (f : VFlags) (cs : List VTree)
    (hpe : isParentDisabled pe = false)
    (hsup : isSupportedState f.sf State.DISABLED = true)
    (hhs : hasState f.sf State.DISABLED = true)
    (hdis : f.disposed = false)
    (hen : f.enabled = false) :
    setEnabled pe true (.node f cs) =
      .node (setEnabledTail true { f with enabled := true }) (enableChildren cs) := by
  have htrans : isTransitionAllowed f State.DISABLED (!true) = true := by
    unfold isTransitionAllowed
    rw [hsup, hhs, hdis]
    rfl
  rw [setEnabled]
  rw [hpe, htrans, hen]
  simp

/-- Flags of a consistent enabled view after `setEnabled(false)` (with an
enabled or absent parent): it ends up disabled, its `wasDisabled` flag is
untouched, and it is consistent again (DISABLED set and supported, not
disposed). -/
theorem setEnabled_flags_disable (pe : Option Bool) (c : VTree)
    (hpe : isParentDisabled pe = false)
    (hc : consistentV c.flags) (hen : c.flags.enabled = true) :
    (setEnabled pe false c).flags.enabled = false ∧
    (setEnabled pe false c).flags.wasDisabled = c.flags.wasDisabled ∧
    consistentV (setEnabled pe false c).flags := by
  obtain ⟨f, cs⟩ := c
  obtain ⟨hcons, hsup, hdis⟩ := hc
  simp only [VTree.flags] at hcons hsup hdis hen ⊢
  have hns : hasState f.sf State.DISABLED = false := by
    have h := hcons
    rw [hen] at h
    cases hh : hasState f.sf State.DISABLED
    · rfl
    · rw [hh] at h
      simp at h
  rw [setEnabled_node_disable pe f cs hpe hsup hns hdis hen]
  show (setEnabledTail false _).enabled = false ∧
    (setEnabledTail false _).wasDisabled = f.wasDisabled ∧ consistentV (setEnabledTail false _)
  set g : VFlags :=
    { setActiveFalse { f with enabled := false } with mouseButtonPressed := false } with hg
  have hge : g.enabled = false := by
    rw [hg]
    show (setActiveFalse { f with enabled := false }).enabled = false
    rw [setActiveFalse_enabled]
  have hgw : g.wasDisabled = f.wasDisabled := by
    rw [hg]
    show (setActiveFalse { f with enabled := false }).wasDisabled = f.wasDisabled
    rw [setActiveFalse_wasDisabled]
  have hgd : g.disposed = false := by
    rw [hg]
    show (setActiveFalse { f with enabled := false }).disposed = false
    rw [setActiveFalse_disposed]
    exact hdis
  have hgs : hasState g.sf State.DISABLED = false := by
    rw [hg]
    show hasState (setActiveFalse { f with enabled := false }).sf State.DISABLED = false
    rw [setActiveFalse_hasStateD]
    exact hns
  have hgsup : isSupportedState g.sf State.DISABLED = true := by
    rw [hg]
    show isSupportedState (setActiveFalse { f with enabled := false }).sf State.DISABLED = true
    rw [setActiveFalse_supported]
    exact hsup
  refine ⟨?_, ?_, ?_, ?_, ?_⟩
  · rw [setEnabledTail_enabled, hge]
  · rw [setEnabledTail_wasDisabled, hgw]
  · rw [setEnabledTail_enabled, setEnabledTail_sf, hge]
    rw [show (!false) = true from rfl, hasStateD_set_true g.sf hgsup hgs]
    rfl
  · rw [setEnabledTail_sf, isSupportedState_setState]
    exact hgsup
  · rw [setEnabledTail_disposed, hgd]

/-- Flags of a consistent disabled view after `setEnabled(true)` (with an
enabled or absent parent): it ends up enabled with `wasDisabled`
untouched. -/
theorem setEnabled_flags_enable (pe : Option Bool) (c : VTree)
    (hpe : isParentDisabled pe = false)
    (hc : consistentV c.flags) (hen : c.flags.enabled = false) :
    (setEnabled pe true c).flags.enabled = true ∧
    (setEnabled pe true c).flags.wasDisabled = c.flags.wasDisabled := by
  obtain ⟨f, cs⟩ := c
  obtain ⟨hcons, hsup, hdis⟩ := hc
  simp only [VTree.flags] at hcons hsup hdis hen ⊢
  have hhs : hasState f.sf State.DISABLED = true := by
    have h := hcons
    rw [hen] at h
    cases hh : hasState f.sf State.DISABLED
    · rw [hh] at h
      simp at h
    · rfl
  rw [setEnabled_node_enable pe f cs hpe hsup hhs hdis hen]
  constructor
  · simp only [VTree.flags]
    rw [setEnabledTail_enabled]
  · simp only [VTree.flags]
    rw [setEnabledTail_wasDisabled]

theorem consistentV_set_wasDisabled (f : VFlags) (b : Bool) (h : consistentV f) :
    consistentV { f with wasDisabled := b } := h

/-- The disabling `forEachChild` pass: every enabled child is disabled
with its `wasDisabled` flag left `false`, every already-disabled child is
flagged; the results are consistent and all disabled. -/
theorem disableChildren_spec (cs : List VTree)
    (h : ∀ c ∈ cs, consistentV c.flags ∧ c.flags.wasDisabled = false) :
    ((disableChildren cs).map fun c => (c.flags.enabled, c.flags.wasDisabled)) =
      (cs.map fun c => ((false : Bool), !c.flags.enabled)) ∧
    ((disableChildren cs).map fun c => !c.flags.wasDisabled) =
      (cs.map fun c => c.flags.enabled) ∧
    ∀ c' ∈ disableChildren cs, consistentV c'.flags ∧ c'.flags.enabled = false := by
  induction cs with
  | nil => exact ⟨rfl, rfl, by intro c hc; cases hc⟩
  | cons c cs ih =>
    obtain ⟨hc, hcw⟩ := h c (List.mem_cons_self c cs)
    obtain ⟨ih1, ih2, ih3⟩ := ih fun x hx => h x (List.mem_cons_of_mem c hx)
    rw [disableChildren]
    by_cases hce : c.flags.enabled = true
    · rw [if_pos hce]
      obtain ⟨hd1, hd2, hd3⟩ := setEnabled_flags_disable (some true) c rfl hc hce
      refine ⟨?_, ?_, ?_⟩
      · rw [List.map_cons, List.map_cons, hd1, hd2, hcw, hce, ih1]
        rfl
      · rw [List.map_cons, List.map_cons, hd2, hcw, hce, ih2]
        rfl
      · intro x hx
        rcases List.mem_cons.mp hx with hx | hx
        · exact hx ▸ ⟨hd3, hd1⟩
        · exact ih3 x hx
    · rw [if_neg hce]
      have hcef : c.flags.enabled = false := by
        cases he : c.flags.enabled
        · rfl
        · exact absurd he hce
      refine ⟨?_, ?_, ?_⟩
      · rw [List.map_cons, List.map_cons, ih1]
        show ((VTree.node { c.flags with wasDisabled := true } c.children).flags.enabled,
            (VTree.node { c.flags with wasDisabled := true } c.children).flags.wasDisabled) ::
            _ = (false, !c.flags.enabled) :: _
        rw [VTree.flags]
        show (c.flags.enabled, true) :: _ = (false, !c.flags.enabled) :: _
        rw [hcef]
        rfl
      · rw [List.map_cons, List.map_cons, ih2]
        show (!(VTree.node { c.flags with wasDisabled := true } c.children).flags.wasDisabled) ::
            _ = c.flags.enabled :: _
        rw [VTree.flags]
        show (!true) :: _ = c.flags.enabled :: _
        rw [hcef]
        rfl
      · intro x hx
        rcases List.mem_cons.mp hx with hx | hx
        · subst hx
          refine ⟨consistentV_set_wasDisabled c.flags true hc, ?_⟩
          show c.flags.enabled = false
          exact hcef
        · exact ih3 x hx

/-- The enabling `forEachChild` pass: flagged children are unflagged and
stay disabled, unflagged children are re-enabled. -/
theorem enableChildren_spec (cs : List VTree)
    (h : ∀ c ∈ cs, consistentV c.flags ∧ c.flags.enabled = false) :
    ((enableChildren cs).map fun c => (c.flags.enabled, c.flags.wasDisabled)) =
      (cs.map fun c => (!c.flags.wasDisabled, (false : Bool))) := by
  induction cs with
  | nil => rfl
  | cons c cs ih =>
    obtain ⟨hc, hce⟩ := h c (List.mem_cons_self c cs)
    rw [enableChildren]
    by_cases hcw : c.flags.wasDisabled = true
    · rw [if_pos hcw]
      rw [List.map_cons, List.map_cons, ih fun x hx => h x (List.mem_cons_of_mem c hx)]
      show ((VTree.node { c.flags with wasDisabled := false } c.children).flags.enabled,
          (VTree.node { c.flags with wasDisabled := false } c.children).flags.wasDisabled) ::
          _ = (!c.flags.wasDisabled, false) :: _
      rw [VTree.flags]
      show (c.flags.enabled, false) :: _ = (!c.flags.wasDisabled, false) :: _
      rw [hce, hcw]
      rfl
    · rw [if_neg hcw]
      have hcwf : c.flags.wasDisabled = false := by
        cases hw : c.flags.wasDisabled
        · rfl
        · exact absurd hw hcw
      obtain ⟨he1, he2⟩ := setEnabled_flags_enable (some true) c rfl hc hce
      rw [List.map_cons, List.map_cons, ih fun x hx => h x (List.mem_cons_of_mem c hx)]
      rw [he1, he2, hcwf]
      rfl

/-- C3: for an enabled view with children (no parent, consistent flags,
no stale `wasDisabled` marks), `setEnabled(false)` disables every
currently-enabled child and marks every already-disabled child with the
`wasDisabled` flag, then marks the container disabled; a subsequent
`setEnabled(true)` re-enables exactly the children that were not already
disabled before the cascade — the flagged children stay disabled and lose
the flag. -/
theorem C3_setEnabled_cascade (f : VFlags) (cs : List VTree)
    (hcons : consistentV f) (hen : f.enabled = true)
    (hch : ∀ c ∈ cs, consistentV c.flags ∧ c.flags.wasDisabled = false) :
    (setEnabled none false (VTree.node f cs)).flags.enabled = false ∧
    ((setEnabled none false (VTree.node f cs)).children.map
        fun c => (c.flags.enabled, c.flags.wasDisabled)) =
      (cs.map fun c => ((false : Bool), !c.flags.enabled)) ∧
    (setEnabled none true (setEnabled none false (VTree.node f cs))).flags.enabled = true ∧
    ((setEnabled none true (setEnabled none false (VTree.node f cs))).children.map
        fun c => (c.flags.enabled, c.flags.wasDisabled)) =
      (cs.map fun c => (c.flags.enabled, (false : Bool))) := by
  obtain ⟨hconsE, hsup, hdis⟩ := hcons
  have hns : hasState f.sf State.DISABLED = false := by
    have h := hconsE
    rw [hen] at h
    cases hh : hasState f.sf State.DISABLED
    · rfl
    · rw [hh] at h
      simp at h
  have hdEq := setEnabled_node_disable none f cs rfl hsup hns hdis hen
  obtain ⟨hdflags1, -, hdflags3⟩ :=
    setEnabled_flags_disable none (VTree.node f cs) rfl ⟨hconsE, hsup, hdis⟩ hen
  obtain ⟨hsp1, hsp2, hsp3⟩ := disableChildren_spec cs hch
  have hdchildren : (setEnabled none false (VTree.node f cs)).children =
      disableChildren cs := by
    rw [hdEq]
    simp only [VTree.children]
  have hpart2 : ((setEnabled none false (VTree.node f cs)).children.map
      fun c => (c.flags.enabled, c.flags.wasDisabled)) =
      (cs.map fun c => ((false : Bool), !c.flags.enabled)) := by
    rw [hdchildren, hsp1]
  obtain ⟨F, CS, hDnode⟩ :
      ∃ F CS, setEnabled none false (VTree.node f cs) = VTree.node F CS :=
    ⟨_, _, hdEq⟩
  have hF1 : F.enabled = false := by
    have h := hdflags1
    rw [hDnode] at h
    simpa [VTree.flags] using h
  have hFcons : consistentV F := by
    have h := hdflags3
    rw [hDnode] at h
    simpa [VTree.flags] using h
  have hCSeq : CS = disableChildren cs := by
    have h := hdchildren
    rw [hDnode] at h
    simpa [VTree.children] using h
  obtain ⟨hcE, hsupF, hdisF⟩ := hFcons
  have hhsF : hasState F.sf State.DISABLED = true := by
    have h := hcE
    rw [hF1] at h
    cases hh : hasState F.sf State.DISABLED
    · rw [hh] at h
      simp at h
    · rfl
  have heEq := setEnabled_node_enable none F CS rfl hsupF hhsF hdisF hF1
  have hpart3 : (setEnabled none true
      (setEnabled none false (VTree.node f cs))).flags.enabled = true := by
    rw [hDnode, heEq]
    simp only [VTree.flags]
    rw [setEnabledTail_enabled]
  have hpart4 : ((setEnabled none true
      (setEnabled none false (VTree.node f cs))).children.map
      fun c => (c.flags.enabled, c.flags.wasDisabled)) =
      (cs.map fun c => (c.flags.enabled, (false : Bool))) := by
    rw [hDnode, heEq]
    simp only [VTree.children]
    rw [hCSeq, enableChildren_spec (disableChildren cs) hsp3]
    have h1 : ((disableChildren cs).map fun c => (!c.flags.wasDisabled, (false : Bool))) =
        ((disableChildren cs).map fun c => !c.flags.wasDisabled).map
          fun b => (b, (false : Bool)) := by
      rw [List.map_map]
      rfl
    rw [h1, hsp2, List.map_map]
    rfl
  exact ⟨hdflags1, hpart2, hpart3, hpart4⟩

/-- Witness for C3: a default enabled container with one enabled and one
already-disabled child. -/
theorem C3_setEnabled_cascade_witness :
    consistentV enabledVFlags ∧ enabledVFlags.enabled = true ∧
    (∀ c ∈ [VTree.node enabledVFlags [], VTree.node disabledVFlags []],
      consistentV c.flags ∧ c.flags.wasDisabled = false) ∧
    ((setEnabled none false
        (VTree.node enabledVFlags [VTree.node enabledVFlags [], VTree.node disabledVFlags []])).children.map
        fun c => (c.flags.enabled, c.flags.wasDisabled)) =
      [(false, false), (false, true)] ∧
    ((setEnabled none true (setEnabled none false
        (VTree.node enabledVFlags [VTree.node enabledVFlags [], VTree.node disabledVFlags []]))).children.map
        fun c => (c.flags.enabled, c.flags.wasDisabled)) =
      [(true, false), (false, false)] := by
  have h := C3_setEnabled_cascade enabledVFlags
    [VTree.node enabledVFlags [], VTree.node disabledVFlags []]
    (by decide) (by decide) (by decide)
  refine ⟨by decide, by decide, by decide, ?_, ?_⟩
  · rw [h.2.1]
    decide
  · rw [h.2.2.2]
    decide

/-! ## Theorems: C10 — compiled against uncompiled template application -/

/-- C10 counterexample: on the template `"a{x}b"` with `values = {x:
null}`, the uncompiled regex path inserts `String(null) = "null"` (the
strict `!== undefined` test passes), while the compiled function's loose
`== undefined` test also catches `null` and inserts the empty string: the
two paths disagree. -/
theorem C10_counterexample :
    applyTemplate "a{x}b".data (fun n => if n = "x" then JsVal.nullv else JsVal.undef) =
      "anullb".data ∧
    compiledApply "a{x}b".data (fun n => if n = "x" then JsVal.nullv else JsVal.undef) =
      "ab".data ∧
    applyTemplate "a{x}b".data (fun n => if n = "x" then JsVal.nullv else JsVal.undef) ≠
      compiledApply "a{x}b".data (fun n => if n = "x" then JsVal.nullv else JsVal.undef) := by
  refine ⟨by decide, by decide, by decide⟩

/-- C10 amended: whenever no property of the values object is `null`, the
compiled substitution function agrees with the uncompiled regex-replace
path — each `{name}` placeholder is replaced by `values[name]`, or by the
empty string when `values[name]` is undefined. -/
theorem C10_amended (html : List Char) (values : String → JsVal)
    (h : ∀ name, values name ≠ JsVal.nullv) :
    compiledApply html values = applyTemplate html values := by
  unfold compiledApply applyTemplate
  congr 1
  apply List.map_congr_left
  intro t _
  cases t with
  | lit c => rfl
  | ph name =>
    have hn := h (String.mk name)
    simp only [renderTok]
    cases hv : values (String.mk name) with
    | undef => simp
    | nullv => exact absurd hv hn
    | strv s => simp

/-- Witness for C10 amended at the template `"a{x}b"` and a values object
binding every name to the string `"v"`. -/
theorem C10_amended_witness :
    (∀ name : String, (fun _ : String => JsVal.strv "v".data) name ≠ JsVal.nullv) ∧
    compiledApply "a{x}b".data (fun _ => JsVal.strv "v".data) =
      applyTemplate "a{x}b".data (fun _ => JsVal.strv "v".data) := by
  constructor
  · intro name
    simp
  · exact C10_amended "a{x}b".data (fun _ => JsVal.strv "v".data) (fun name => by simp)

end Cmvc
